import Mathlib

/-!
Verification of the SPH particle simulation in src/state.rs (plasma-pong).

Shallow embedding conventions:
* f32 quantities are idealised as exact real numbers (ℝ); wall-clock and
  tick bookkeeping times are idealised as rationals (ℚ).
* usize arithmetic wraps modulo 2^64 (release-mode semantics); `i32 as usize`
  sign-extends, i.e. takes the representative modulo 2^64.
* The particle count `PARTICLE_COUNT` (1200 in the code) is kept as a state
  field `n`: every loop in the code runs over `0..PARTICLE_COUNT`, which is
  invariantly the common length of all the per-particle vectors.
* `ThreadRng` is modelled as a stream `rng : ℕ → Vec2` of successive
  `gen::<Vec2>()` draws together with a cursor `rngIndex`.
* Per-particle vectors are modelled as functions `ℕ → _`; the loops of the
  code write exactly the indices `0..n`, so the passes update those indices
  and leave others untouched.
-/

namespace PlasmaPong

/-- 2D vector, as in glam's Vec2 (f32 pair), idealised over ℝ. -/
abbrev Vec2 : Type := ℝ × ℝ

/-- Vec2::length_squared. -/
def lengthSquared (v : Vec2) : ℝ := v.1 * v.1 + v.2 * v.2

/-- Vec2::length. -/
noncomputable def vlength (v : Vec2) : ℝ := Real.sqrt (lengthSquared v)

/-- Componentwise division of a Vec2 by an f32 scalar (glam's Div<f32>). -/
noncomputable def vdivs (v : Vec2) (c : ℝ) : Vec2 := (v.1 / c, v.2 / c)

/-- Vec2::normalize: self / length. (In exact arithmetic Lean's x/0 = 0, so
normalising the zero vector yields the zero vector, where f32 would give NaN.) -/
noncomputable def vnormalize (v : Vec2) : Vec2 := vdivs v (vlength v)

/-- f32::EPSILON. -/
noncomputable def F32_EPSILON : ℝ := 1 / 2 ^ 23

/-- State::TICK_RATE. -/
def TICK_RATE : ℚ := 30

/-- State::TICK_DELTA. -/
def TICK_DELTA : ℚ := 1 / TICK_RATE

/-- State::MASS. -/
def MASS : ℝ := 1

/-- State::TARGET_DENSITY. -/
def TARGET_DENSITY : ℝ := 5

/-- State::SMOOTHING_RADIUS. -/
noncomputable def SMOOTHING_RADIUS : ℝ := 7 / 10

/-- State::COLLISION_DAMPING. -/
noncomputable def COLLISION_DAMPING : ℝ := 3 / 4

/-- State::PRESSURE_MULTIPLIER. -/
def PRESSURE_MULTIPLIER : ℝ := 50

/-- State::INTERACTION_RADIUS. -/
noncomputable def INTERACTION_RADIUS : ℝ := 3 / 2

/-- State::INTERACTION_STRENGTH. -/
def INTERACTION_STRENGTH : ℝ := 5

/-- 2^64, the modulus of usize arithmetic. -/
def USIZE_MOD : ℕ := 2 ^ 64

/-- usize::MAX, the sentinel for an empty cell in start_indices. -/
def USIZE_MAX : ℕ := 2 ^ 64 - 1

/-- Rect (state.rs). -/
structure Rect where
  x : ℝ
  y : ℝ
  w : ℝ
  h : ℝ

/-- Rect::left. -/
def Rect.left (r : Rect) : ℝ := r.x

/-- Rect::right. -/
def Rect.right (r : Rect) : ℝ := r.x + r.w

/-- Rect::top. -/
def Rect.top (r : Rect) : ℝ := r.y

/-- Rect::bottom. -/
def Rect.bottom (r : Rect) : ℝ := r.y + r.h

/-- Interaction (engine.rs): a pointer interaction with a world position. -/
inductive Interaction where
  | Repel (pos : Vec2)
  | Suck (pos : Vec2)

/-- State (state.rs): the particle ensemble, the spatial lookup and the
fixed-timestep accumulator. `n` is PARTICLE_COUNT, the invariant common
length of positions / predicted_positions / velocities / densities /
spatial_lookup / start_indices. -/
structure State where
  n : ℕ
  rng : ℕ → Vec2
  rngIndex : ℕ
  boundingBox : Rect
  positions : ℕ → Vec2
  predictedPositions : ℕ → Vec2
  velocities : ℕ → Vec2
  densities : ℕ → ℝ
  spatialLookup : List (ℕ × ℕ)
  startIndices : ℕ → ℕ
  lastUpdateOffset : ℚ

/-- smoothing_kernel (state.rs): W(dist, radius); 0 when dist ≥ radius, else
(radius − dist)² / (π·radius⁴/6). -/
noncomputable def smoothing_kernel (dist radius : ℝ) : ℝ :=
  if radius ≤ dist then 0
  else (radius - dist) * (radius - dist) / (Real.pi * radius ^ 4 / 6)

/-- smoothing_kernel_derivative (state.rs): 0 when dist ≥ radius, else
(dist − radius) · 12/(radius⁴·π). -/
noncomputable def smoothing_kernel_derivative (dist radius : ℝ) : ℝ :=
  if radius ≤ dist then 0
  else (dist - radius) * (12 / (radius ^ 4 * Real.pi))

/-- world_pos_to_cell_pos (state.rs): componentwise floor(pos / smoothing_radius). -/
noncomputable def world_pos_to_cell_pos (worldPos : Vec2) (smoothingRadius : ℝ) : ℤ × ℤ :=
  (⌊worldPos.1 / smoothingRadius⌋, ⌊worldPos.2 / smoothingRadius⌋)

/-- `i32 as usize` on a 64-bit target: the representative modulo 2^64. -/
def toUsize (z : ℤ) : ℕ := (z % (USIZE_MOD : ℤ)).toNat

/-- create_cell_hash (state.rs): x·15823 + y·9737333 in wrapping usize
arithmetic (release-mode two's-complement semantics). -/
def create_cell_hash (cellPos : ℤ × ℤ) : ℕ :=
  (toUsize cellPos.1 * 15823 % USIZE_MOD + toUsize cellPos.2 * 9737333 % USIZE_MOD) % USIZE_MOD

/-- Comparison used by the sort in update_spatial_lookup: sort_by_key on the
cell key. -/
def leKey (a b : ℕ × ℕ) : Prop := a.2 ≤ b.2

instance : DecidableRel leKey := fun a b => Nat.decLe a.2 b.2

instance : IsTotal (ℕ × ℕ) leKey := ⟨fun a b => Nat.le_total a.2 b.2⟩

instance : IsTrans (ℕ × ℕ) leKey := ⟨fun _ _ _ h h' => Nat.le_trans h h'⟩

instance : IsRefl (ℕ × ℕ) leKey := ⟨fun a => Nat.le_refl a.2⟩

/-- The cell key stored at index i of a lookup list (spatial_lookup[i].1 in
the source is the particle index, .2 the key). -/
def keyAt (lookup : List (ℕ × ℕ)) (i : ℕ) : ℕ := (lookup.getD i (0, 0)).2

/-- The scan of update_spatial_lookup records index i exactly when its key
differs from the previous entry's key (usize::MAX before index 0). -/
def isBoundary (lookup : List (ℕ × ℕ)) (i : ℕ) : Prop :=
  keyAt lookup i ≠ if i = 0 then USIZE_MAX else keyAt lookup (i - 1)

instance (lookup : List (ℕ × ℕ)) (i : ℕ) : Decidable (isBoundary lookup i) := by
  unfold isBoundary
  infer_instance

/-- The scan at the end of update_spatial_lookup (state.rs lines 210-222):
walk the sorted list from index `i`; whenever the key differs from the
previous entry's key (usize::MAX at position 0), record the current index in
start_indices. -/
def scanStarts (lookup : List (ℕ × ℕ)) : ℕ → (ℕ → ℕ) → (ℕ → ℕ)
  | i, si =>
    if _h : i < lookup.length then
      let key := keyAt lookup i
      let prevKey := if i = 0 then USIZE_MAX else keyAt lookup (i - 1)
      scanStarts lookup (i + 1) (if key ≠ prevKey then Function.update si key i else si)
    else si
  termination_by i _ => lookup.length - i
  decreasing_by simp_wf; omega

/-- update_spatial_lookup (state.rs): recompute every particle's cell key
from its current position (modulo the lookup length, invariantly n), sort the
(index, key) pairs by key, reset all n start_indices slots to the sentinel
and scan the sorted list for the run starts. Rust's sort_by_key is a stable
sort, so a stable insertion sort produces the identical list. -/
noncomputable def update_spatial_lookup (s : State) : State :=
  let pairs := (List.range s.n).map fun i =>
    (i, create_cell_hash (world_pos_to_cell_pos (s.positions i) SMOOTHING_RADIUS) % s.n)
  let sorted := List.insertionSort leKey pairs
  { s with spatialLookup := sorted
           startIndices := scanStarts sorted 0 fun _ => USIZE_MAX }

/-- The inner candidate loop of get_neighbours_by_pos (state.rs lines
183-194): from index `i`, scan forward while the entry's key matches
`cellKey`, collecting each particle whose true squared distance to the query
position is within the squared radius. -/
noncomputable def scanCell (s : State) (worldPos : Vec2) (sqrRadius : ℝ) (cellKey : ℕ) :
    ℕ → List ℕ
  | i =>
    if _h : i < s.spatialLookup.length then
      let entry := s.spatialLookup.getD i (0, 0)
      if entry.2 ≠ cellKey then []
      else
        (if lengthSquared (s.positions entry.1 - worldPos) ≤ sqrRadius then [entry.1] else []) ++
          scanCell s worldPos sqrRadius cellKey (i + 1)
    else []
  termination_by i => s.spatialLookup.length - i
  decreasing_by simp_wf; omega

/-- The 9 cell offsets scanned by get_neighbours_by_pos, in source order. -/
def OFFSETS : List (ℤ × ℤ) :=
  [(-1, -1), (0, -1), (1, -1), (-1, 0), (0, 0), (1, 0), (-1, 1), (0, 1), (1, 1)]

/-- get_neighbours_by_pos (state.rs): for each of the 9 offsets around the
query cell, look up the offset cell's start index and scan its run,
distance-filtering every candidate. -/
noncomputable def get_neighbours_by_pos (s : State) (worldPos : Vec2) : List ℕ :=
  let centerPos := world_pos_to_cell_pos worldPos SMOOTHING_RADIUS
  let sqrRadius := SMOOTHING_RADIUS * SMOOTHING_RADIUS
  (OFFSETS.map fun offset =>
    let cellKey :=
      create_cell_hash (centerPos.1 + offset.1, centerPos.2 + offset.2) % s.spatialLookup.length
    scanCell s worldPos sqrRadius cellKey (s.startIndices cellKey)).flatten

/-- get_neighbours_by_idx (state.rs): query at the particle's current position. -/
noncomputable def get_neighbours_by_idx (s : State) (idx : ℕ) : List ℕ :=
  get_neighbours_by_pos s (s.positions idx)

/-- calculate_density (state.rs): sum the smoothing kernel of the distance
between current positions over the neighbour query at the particle's current
position. -/
noncomputable def calculate_density (s : State) (idx : ℕ) : ℝ :=
  ((get_neighbours_by_idx s idx).map fun otherIdx =>
    smoothing_kernel (vlength (s.positions otherIdx - s.positions idx)) SMOOTHING_RADIUS).sum

/-- convert_density_to_pressure (state.rs). -/
def convert_density_to_pressure (density : ℝ) : ℝ :=
  (density - TARGET_DENSITY) * PRESSURE_MULTIPLIER

/-- calculate_shared_pressure (state.rs): arithmetic mean of the two scalar
pressures. -/
noncomputable def calculate_shared_pressure (densityA densityB : ℝ) : ℝ :=
  (convert_density_to_pressure densityA + convert_density_to_pressure densityB) / 2

/-- The direction used by calculate_pressure_force for the pair (idx,
otherIdx) when the rng cursor is at `r`: normalize the offset between the
predicted positions, falling back to normalising the next rng draw when the
distance is exactly zero. -/
noncomputable def pressure_dir (s : State) (r idx otherIdx : ℕ) : Vec2 :=
  let offset := s.predictedPositions otherIdx - s.predictedPositions idx
  let dst := vlength offset
  vnormalize (if dst = 0 then s.rng r else offset)

/-- One iteration of the loop body of calculate_pressure_force (state.rs
lines 249-267), threading the accumulated force and the rng cursor. -/
noncomputable def pressureStep (s : State) (idx : ℕ) (acc : Vec2 × ℕ) (otherIdx : ℕ) :
    Vec2 × ℕ :=
  if otherIdx = idx then acc
  else
    let offset := s.predictedPositions otherIdx - s.predictedPositions idx
    let dst := vlength offset
    let dir := pressure_dir s acc.2 idx otherIdx
    let r' := if dst = 0 then acc.2 + 1 else acc.2
    let slope := smoothing_kernel_derivative dst SMOOTHING_RADIUS
    let density := s.densities otherIdx
    let sharedPressure := calculate_shared_pressure density (s.densities idx)
    (acc.1 + vdivs (MASS • (slope • (sharedPressure • dir))) density, r')

/-- calculate_pressure_force (state.rs): fold the loop body over all particle
indices, starting from rng cursor `r`; returns the force and the new cursor. -/
noncomputable def calculate_pressure_force (s : State) (r idx : ℕ) : Vec2 × ℕ :=
  (List.range s.n).foldl (pressureStep s idx) ((0, 0), r)

/-- interaction_force (state.rs). -/
noncomputable def interaction_force (s : State) (input : Vec2) (radius strength : ℝ)
    (idx : ℕ) : Vec2 :=
  let offset := input - s.positions idx
  let sqrDist := lengthSquared offset
  if sqrDist < radius * radius then
    let dist := Real.sqrt sqrDist
    let dirToInputPoint := if dist ≤ F32_EPSILON then ((0, 0) : Vec2) else vnormalize offset
    let centerT := 1 - dist / radius
    centerT • (strength • dirToInputPoint - s.velocities idx)
  else (0, 0)

/-- The clamp-and-damp of resolve_collisions (state.rs) for one particle:
each axis is handled independently and sequentially, multiplying the velocity
component by ±signum(v)·damping. Rust's f32::signum is 1 for non-negative
values and −1 for negative ones. -/
noncomputable def rustSignum (x : ℝ) : ℝ := if x < 0 then -1 else 1

/-- resolve_collisions (state.rs), one particle. -/
noncomputable def resolveParticle (bb : Rect) (p v : Vec2) : Vec2 × Vec2 :=
  let q1 : Vec2 × Vec2 :=
    if p.1 < bb.left then ((bb.left, p.2), (v.1 * (rustSignum v.1 * COLLISION_DAMPING), v.2))
    else (p, v)
  let q2 : Vec2 × Vec2 :=
    if bb.right < q1.1.1 then
      ((bb.right, q1.1.2), (q1.2.1 * (-(rustSignum q1.2.1) * COLLISION_DAMPING), q1.2.2))
    else q1
  let q3 : Vec2 × Vec2 :=
    if q2.1.2 < bb.top then
      ((q2.1.1, bb.top), (q2.2.1, q2.2.2 * (rustSignum q2.2.2 * COLLISION_DAMPING)))
    else q2
  if bb.bottom < q3.1.2 then
    ((q3.1.1, bb.bottom), (q3.2.1, q3.2.2 * (-(rustSignum q3.2.2) * COLLISION_DAMPING)))
  else q3

/-- resolve_collisions (state.rs): apply the clamp-and-damp to every particle. -/
noncomputable def resolve_collisions (s : State) : State :=
  { s with
    positions := fun i =>
      if i < s.n then (resolveParticle s.boundingBox (s.positions i) (s.velocities i)).1
      else s.positions i
    velocities := fun i =>
      if i < s.n then (resolveParticle s.boundingBox (s.positions i) (s.velocities i)).2
      else s.velocities i }

/-- The interaction stage of tick (state.rs lines 113-128). -/
noncomputable def applyInteraction (inter : Option Interaction) (s : State) : State :=
  match inter with
  | some inter =>
    let ps :=
      match inter with
      | Interaction.Repel pos => (pos, -INTERACTION_STRENGTH)
      | Interaction.Suck pos => (pos, INTERACTION_STRENGTH)
    { s with velocities := fun i =>
        if i < s.n then s.velocities i + interaction_force s ps.1 INTERACTION_RADIUS ps.2 i
        else s.velocities i }
  | none => s

/-- The position-prediction stage of tick (state.rs lines 133-136); the
lookahead is the fixed TICK_DELTA constant. -/
noncomputable def predictPositions (s : State) : State :=
  { s with predictedPositions := fun i =>
      if i < s.n then s.positions i + ((TICK_DELTA : ℚ) : ℝ) • s.velocities i
      else s.predictedPositions i }

/-- The density stage of tick (state.rs lines 139-141). -/
noncomputable def calculateDensities (s : State) : State :=
  { s with densities := fun i =>
      if i < s.n then calculate_density s i else s.densities i }

/-- The pressure-velocity stage of tick (state.rs lines 144-148): each
particle's pressure force (threading the rng cursor) is divided by its
density and integrated into its velocity. -/
noncomputable def velocityPass (delta : ℚ) (s : State) : State :=
  let res := (List.range s.n).foldl
    (fun (acc : (ℕ → Vec2) × ℕ) i =>
      let pf := calculate_pressure_force s acc.2 i
      let pressureAccel := vdivs pf.1 (s.densities i)
      (Function.update acc.1 i (acc.1 i + ((delta : ℚ) : ℝ) • pressureAccel), pf.2))
    (s.velocities, s.rngIndex)
  { s with velocities := res.1, rngIndex := res.2 }

/-- The integration stage of tick (state.rs lines 151-153). -/
noncomputable def moveParticles (delta : ℚ) (s : State) : State :=
  { s with positions := fun i =>
      if i < s.n then s.positions i + ((delta : ℚ) : ℝ) • s.velocities i
      else s.positions i }

/-- tick (state.rs): interaction, spatial-lookup rebuild, prediction,
densities, pressure velocities, integration, collisions — in source order. -/
noncomputable def tick (delta : ℚ) (inter : Option Interaction) (s : State) : State :=
  resolve_collisions
    (moveParticles delta
      (velocityPass delta
        (calculateDensities
          (predictPositions
            (update_spatial_lookup
              (applyInteraction inter s))))))

/-- Truncating integer part of a rational, as Rust's f32 `%` truncates
toward zero. -/
def ratTrunc (q : ℚ) : ℤ := q.num / (q.den : ℤ)

/-- Rust's `%` remainder on f32, idealised: a − b·trunc(a/b). -/
def rustRem (a b : ℚ) : ℚ := a - b * ((ratTrunc (a / b) : ℤ) : ℚ)

/-- The while loop of State::update (state.rs lines 102-107): starting from
t = TICK_DELTA, call the tick body and advance t by TICK_DELTA while
t < end. Generic in the loop body, exactly as the loop only uses
self.tick as a black box. -/
def updateAux {σ : Type} (f : σ → σ) (endT : ℚ) : ℚ → σ → σ
  | t, s =>
    if _h : t < endT then updateAux f endT (t + TICK_DELTA) (f s) else s
  termination_by t _ => (⌈(endT - t) / TICK_DELTA⌉).toNat
  decreasing_by
    simp_wf
    have hd : (0 : ℚ) < TICK_DELTA := by norm_num [TICK_DELTA, TICK_RATE]
    have hx : (0 : ℚ) < (endT - t) / TICK_DELTA := div_pos (by linarith) hd
    have h1 : (endT - (t + TICK_DELTA)) / TICK_DELTA = (endT - t) / TICK_DELTA - 1 := by
      field_simp
      ring
    rw [h1, Int.ceil_sub_one]
    exact ⟨by have h2 : (0 : ℤ) < ⌈(endT - t) / TICK_DELTA⌉ := Int.ceil_pos.mpr hx; omega, hx⟩

/-- State::update (state.rs lines 100-110): run the tick loop on
end = last_update_offset + delta_time, then store end % TICK_DELTA. -/
noncomputable def update (s : State) (deltaTime : ℚ) (inter : Option Interaction) : State :=
  let endT := s.lastUpdateOffset + deltaTime
  let s' := updateAux (tick TICK_DELTA inter) endT TICK_DELTA s
  { s' with lastUpdateOffset := rustRem endT TICK_DELTA }

/-- Modelled from the spec: the density value the spec's density pass
describes — W(|predicted[j] − predicted[i]|, h) summed over the
distance-filtered neighbour set at the predicted positions, each particle
once, including i itself. -/
noncomputable def density_from_predicted_spec (s : State) (i : ℕ) : ℝ :=
  (((List.range s.n).filter fun j =>
      lengthSquared (s.predictedPositions j - s.predictedPositions i) ≤
        SMOOTHING_RADIUS * SMOOTHING_RADIUS).map fun j =>
    smoothing_kernel (vlength (s.predictedPositions j - s.predictedPositions i))
      SMOOTHING_RADIUS).sum

/-- Number of rng draws the loop of calculate_pressure_force for particle idx
consumes strictly before reaching other index j: one per earlier coincident
pair. -/
noncomputable def coincident_before (s : State) (idx j : ℕ) : ℕ :=
  ((List.range j).filter fun j2 => ¬j2 = idx ∧
    vlength (s.predictedPositions j2 - s.predictedPositions idx) = 0).length

/-- The pressure term contributed by the pair (idx, j) when the rng cursor
started at r as calculate_pressure_force began:
shared_pressure · dir · ∇W(dist, h) · MASS / density[j]. -/
noncomputable def pressure_term (s : State) (r idx j : ℕ) : Vec2 :=
  let dst := vlength (s.predictedPositions j - s.predictedPositions idx)
  vdivs (MASS • (smoothing_kernel_derivative dst SMOOTHING_RADIUS •
    (calculate_shared_pressure (s.densities j) (s.densities idx) •
      pressure_dir s (r + coincident_before s idx j) idx j))) (s.densities j)

/-- The rng cursor value at which the pressure loop of the velocity pass
starts for particle i: the initial cursor plus everything consumed by the
earlier particles' loops. -/
noncomputable def rng_cursor_at (s : State) (i : ℕ) : ℕ :=
  s.rngIndex + ((List.range i).map fun i2 => coincident_before s i2 s.n).sum

/-- A one-particle state: the particle sits at (1, 1) inside the default
16×9 box and moves right with velocity (1, 0). -/
noncomputable def oneParticle : State where
  n := 1
  rng := fun _ => (0, 0)
  rngIndex := 0
  boundingBox := ⟨0, 0, 16, 9⟩
  positions := fun _ => (1, 1)
  predictedPositions := fun _ => (0, 0)
  velocities := fun _ => (1, 0)
  densities := fun _ => 0
  spatialLookup := [(0, 0)]
  startIndices := fun _ => USIZE_MAX
  lastUpdateOffset := 0

/-- Two particles, both at (1, 1); particle 1 has a velocity that carries its
predicted position two units to the right. -/
noncomputable def twoCoincident : State where
  n := 2
  rng := fun _ => (0, 0)
  rngIndex := 0
  boundingBox := ⟨0, 0, 16, 9⟩
  positions := fun _ => (1, 1)
  predictedPositions := fun _ => (0, 0)
  velocities := fun i => if i = 0 then (0, 0) else (60, 0)
  densities := fun _ => 0
  spatialLookup := [(0, 0)]
  startIndices := fun _ => USIZE_MAX
  lastUpdateOffset := 0

/-- Two particles whose predicted positions coincide exactly, with an rng
stream that yields the zero vector. -/
noncomputable def zeroDrawState : State where
  n := 2
  rng := fun _ => (0, 0)
  rngIndex := 0
  boundingBox := ⟨0, 0, 16, 9⟩
  positions := fun _ => (1, 1)
  predictedPositions := fun _ => (1, 1)
  velocities := fun _ => (0, 0)
  densities := fun _ => 1
  spatialLookup := [(0, 0)]
  startIndices := fun _ => USIZE_MAX
  lastUpdateOffset := 0

/-- Two particles whose predicted positions coincide exactly, with an rng
stream that yields (3, 4). -/
noncomputable def nonzeroDrawState : State where
  n := 2
  rng := fun _ => (3, 4)
  rngIndex := 0
  boundingBox := ⟨0, 0, 16, 9⟩
  positions := fun _ => (1, 1)
  predictedPositions := fun _ => (1, 1)
  velocities := fun _ => (0, 0)
  densities := fun _ => 1
  spatialLookup := [(0, 0)]
  startIndices := fun _ => USIZE_MAX
  lastUpdateOffset := 0

/-- A particle resting exactly at bounding_box.right + 1.0 with an inward
(negative) x-velocity. -/
noncomputable def beyondRightInward : State where
  n := 1
  rng := fun _ => (0, 0)
  rngIndex := 0
  boundingBox := ⟨0, 0, 16, 9⟩
  positions := fun _ => (17, 4)
  predictedPositions := fun _ => (0, 0)
  velocities := fun _ => (-2, 0)
  densities := fun _ => 0
  spatialLookup := [(0, 0)]
  startIndices := fun _ => USIZE_MAX
  lastUpdateOffset := 0

/-- Thirteen particles, all at (1, 1): modulo 13 the nine scanned cells have
pairwise distinct hash keys, so the neighbour query has no aliasing. -/
noncomputable def thirteenCoincident : State where
  n := 13
  rng := fun _ => (0, 0)
  rngIndex := 0
  boundingBox := ⟨0, 0, 16, 9⟩
  positions := fun _ => (1, 1)
  predictedPositions := fun _ => (0, 0)
  velocities := fun _ => (0, 0)
  densities := fun _ => 0
  spatialLookup := [(0, 0)]
  startIndices := fun _ => USIZE_MAX
  lastUpdateOffset := 0

/-- The mid-tick state of twoCoincident: spatial lookup rebuilt and predicted
positions computed, exactly as they stand when the density pass runs. -/
noncomputable def twoMidTick : State :=
  predictPositions (update_spatial_lookup twoCoincident)

/-- Modelled from the spec: the pressure accumulation as the spec words it —
fold the same per-pair loop body over the neighbour list returned by the
spatial query at the particle's predicted position (entries equal to idx are
skipped by the loop body, matching the spec's j ≠ i), instead of over all
particle indices as the code does. -/
noncomputable def calculate_pressure_force_query_spec (s : State) (r idx : ℕ) : Vec2 × ℕ :=
  (get_neighbours_by_pos s (s.predictedPositions idx)).foldl (pressureStep s idx) ((0, 0), r)

/-- Two particles at (1, 1) with coincident predicted positions, unit
densities and an rng stream drawing (3, 4); the spatial lookup and start
indices are exactly the values update_spatial_lookup produces for two
particles at (1, 1) (see twoCoincident_lookup, two_start0, two_start1). -/
noncomputable def coincidentPair : State where
  n := 2
  rng := fun _ => (3, 4)
  rngIndex := 0
  boundingBox := ⟨0, 0, 16, 9⟩
  positions := fun _ => (1, 1)
  predictedPositions := fun _ => (1, 1)
  velocities := fun _ => (0, 0)
  densities := fun _ => 1
  spatialLookup := [(0, 0), (1, 0)]
  startIndices := fun k => if k = 0 then 0 else USIZE_MAX
  lastUpdateOffset := 0

/-! Projection lemmas: each pass only writes the fields the source loop
writes. -/

@[simp] theorem usl_n (s : State) : (update_spatial_lookup s).n = s.n := rfl

@[simp] theorem usl_positions (s : State) :
    (update_spatial_lookup s).positions = s.positions := rfl

@[simp] theorem usl_predicted (s : State) :
    (update_spatial_lookup s).predictedPositions = s.predictedPositions := rfl

@[simp] theorem usl_velocities (s : State) :
    (update_spatial_lookup s).velocities = s.velocities := rfl

@[simp] theorem usl_densities (s : State) :
    (update_spatial_lookup s).densities = s.densities := rfl

@[simp] theorem usl_boundingBox (s : State) :
    (update_spatial_lookup s).boundingBox = s.boundingBox := rfl

@[simp] theorem usl_rng (s : State) : (update_spatial_lookup s).rng = s.rng := rfl

@[simp] theorem usl_rngIndex (s : State) :
    (update_spatial_lookup s).rngIndex = s.rngIndex := rfl

@[simp] theorem usl_lastUpdateOffset (s : State) :
    (update_spatial_lookup s).lastUpdateOffset = s.lastUpdateOffset := rfl

theorem usl_spatialLookup (s : State) :
    (update_spatial_lookup s).spatialLookup =
      List.insertionSort leKey ((List.range s.n).map fun i =>
        (i, create_cell_hash (world_pos_to_cell_pos (s.positions i) SMOOTHING_RADIUS) % s.n)) :=
  rfl

theorem usl_startIndices (s : State) :
    (update_spatial_lookup s).startIndices =
      scanStarts (update_spatial_lookup s).spatialLookup 0 fun _ => USIZE_MAX := rfl

@[simp] theorem predict_n (s : State) : (predictPositions s).n = s.n := rfl

@[simp] theorem predict_positions (s : State) :
    (predictPositions s).positions = s.positions := rfl

@[simp] theorem predict_velocities (s : State) :
    (predictPositions s).velocities = s.velocities := rfl

@[simp] theorem predict_densities (s : State) :
    (predictPositions s).densities = s.densities := rfl

@[simp] theorem predict_boundingBox (s : State) :
    (predictPositions s).boundingBox = s.boundingBox := rfl

@[simp] theorem predict_rng (s : State) : (predictPositions s).rng = s.rng := rfl

@[simp] theorem predict_rngIndex (s : State) :
    (predictPositions s).rngIndex = s.rngIndex := rfl

@[simp] theorem predict_spatialLookup (s : State) :
    (predictPositions s).spatialLookup = s.spatialLookup := rfl

@[simp] theorem predict_startIndices (s : State) :
    (predictPositions s).startIndices = s.startIndices := rfl

@[simp] theorem predict_lastUpdateOffset (s : State) :
    (predictPositions s).lastUpdateOffset = s.lastUpdateOffset := rfl

theorem predict_predicted (s : State) (i : ℕ) (hi : i < s.n) :
    (predictPositions s).predictedPositions i =
      s.positions i + ((TICK_DELTA : ℚ) : ℝ) • s.velocities i := by
  simp [predictPositions, hi]

@[simp] theorem dens_n (s : State) : (calculateDensities s).n = s.n := rfl

@[simp] theorem dens_positions (s : State) :
    (calculateDensities s).positions = s.positions := rfl

@[simp] theorem dens_predicted (s : State) :
    (calculateDensities s).predictedPositions = s.predictedPositions := rfl

@[simp] theorem dens_velocities (s : State) :
    (calculateDensities s).velocities = s.velocities := rfl

@[simp] theorem dens_boundingBox (s : State) :
    (calculateDensities s).boundingBox = s.boundingBox := rfl

@[simp] theorem dens_rng (s : State) : (calculateDensities s).rng = s.rng := rfl

@[simp] theorem dens_rngIndex (s : State) :
    (calculateDensities s).rngIndex = s.rngIndex := rfl

@[simp] theorem dens_spatialLookup (s : State) :
    (calculateDensities s).spatialLookup = s.spatialLookup := rfl

@[simp] theorem dens_startIndices (s : State) :
    (calculateDensities s).startIndices = s.startIndices := rfl

@[simp] theorem dens_lastUpdateOffset (s : State) :
    (calculateDensities s).lastUpdateOffset = s.lastUpdateOffset := rfl

theorem dens_densities (s : State) (i : ℕ) (hi : i < s.n) :
    (calculateDensities s).densities i = calculate_density s i := by
  simp [calculateDensities, hi]

@[simp] theorem vel_n (delta : ℚ) (s : State) : (velocityPass delta s).n = s.n := rfl

@[simp] theorem vel_positions (delta : ℚ) (s : State) :
    (velocityPass delta s).positions = s.positions := rfl

@[simp] theorem vel_predicted (delta : ℚ) (s : State) :
    (velocityPass delta s).predictedPositions = s.predictedPositions := rfl

@[simp] theorem vel_densities (delta : ℚ) (s : State) :
    (velocityPass delta s).densities = s.densities := rfl

@[simp] theorem vel_boundingBox (delta : ℚ) (s : State) :
    (velocityPass delta s).boundingBox = s.boundingBox := rfl

@[simp] theorem vel_rng (delta : ℚ) (s : State) : (velocityPass delta s).rng = s.rng := rfl

@[simp] theorem vel_spatialLookup (delta : ℚ) (s : State) :
    (velocityPass delta s).spatialLookup = s.spatialLookup := rfl

@[simp] theorem vel_startIndices (delta : ℚ) (s : State) :
    (velocityPass delta s).startIndices = s.startIndices := rfl

@[simp] theorem vel_lastUpdateOffset (delta : ℚ) (s : State) :
    (velocityPass delta s).lastUpdateOffset = s.lastUpdateOffset := rfl

@[simp] theorem move_n (delta : ℚ) (s : State) : (moveParticles delta s).n = s.n := rfl

@[simp] theorem move_predicted (delta : ℚ) (s : State) :
    (moveParticles delta s).predictedPositions = s.predictedPositions := rfl

@[simp] theorem move_velocities (delta : ℚ) (s : State) :
    (moveParticles delta s).velocities = s.velocities := rfl

@[simp] theorem move_densities (delta : ℚ) (s : State) :
    (moveParticles delta s).densities = s.densities := rfl

@[simp] theorem move_boundingBox (delta : ℚ) (s : State) :
    (moveParticles delta s).boundingBox = s.boundingBox := rfl

@[simp] theorem move_rng (delta : ℚ) (s : State) : (moveParticles delta s).rng = s.rng := rfl

@[simp] theorem move_rngIndex (delta : ℚ) (s : State) :
    (moveParticles delta s).rngIndex = s.rngIndex := rfl

@[simp] theorem move_spatialLookup (delta : ℚ) (s : State) :
    (moveParticles delta s).spatialLookup = s.spatialLookup := rfl

@[simp] theorem move_startIndices (delta : ℚ) (s : State) :
    (moveParticles delta s).startIndices = s.startIndices := rfl

@[simp] theorem move_lastUpdateOffset (delta : ℚ) (s : State) :
    (moveParticles delta s).lastUpdateOffset = s.lastUpdateOffset := rfl

theorem move_positions (delta : ℚ) (s : State) (i : ℕ) (hi : i < s.n) :
    (moveParticles delta s).positions i = s.positions i + ((delta : ℚ) : ℝ) • s.velocities i := by
  simp [moveParticles, hi]

@[simp] theorem resolve_n (s : State) : (resolve_collisions s).n = s.n := rfl

@[simp] theorem resolve_predicted (s : State) :
    (resolve_collisions s).predictedPositions = s.predictedPositions := rfl

@[simp] theorem resolve_densities (s : State) :
    (resolve_collisions s).densities = s.densities := rfl

@[simp] theorem resolve_boundingBox (s : State) :
    (resolve_collisions s).boundingBox = s.boundingBox := rfl

@[simp] theorem resolve_rng (s : State) : (resolve_collisions s).rng = s.rng := rfl

@[simp] theorem resolve_rngIndex (s : State) :
    (resolve_collisions s).rngIndex = s.rngIndex := rfl

@[simp] theorem resolve_spatialLookup (s : State) :
    (resolve_collisions s).spatialLookup = s.spatialLookup := rfl

@[simp] theorem resolve_startIndices (s : State) :
    (resolve_collisions s).startIndices = s.startIndices := rfl

@[simp] theorem resolve_lastUpdateOffset (s : State) :
    (resolve_collisions s).lastUpdateOffset = s.lastUpdateOffset := rfl

theorem resolve_positions (s : State) (i : ℕ) (hi : i < s.n) :
    (resolve_collisions s).positions i =
      (resolveParticle s.boundingBox (s.positions i) (s.velocities i)).1 := by
  simp [resolve_collisions, hi]

theorem resolve_velocities (s : State) (i : ℕ) (hi : i < s.n) :
    (resolve_collisions s).velocities i =
      (resolveParticle s.boundingBox (s.positions i) (s.velocities i)).2 := by
  simp [resolve_collisions, hi]

@[simp] theorem applyInteraction_none (s : State) : applyInteraction none s = s := rfl

@[simp] theorem tick_n (delta : ℚ) (inter : Option Interaction) (s : State) :
    (tick delta inter s).n = s.n := by
  cases inter <;> rfl

@[simp] theorem tick_boundingBox (delta : ℚ) (inter : Option Interaction) (s : State) :
    (tick delta inter s).boundingBox = s.boundingBox := by
  cases inter <;> rfl

@[simp] theorem tick_rng (delta : ℚ) (inter : Option Interaction) (s : State) :
    (tick delta inter s).rng = s.rng := by
  cases inter <;> rfl

@[simp] theorem tick_lastUpdateOffset (delta : ℚ) (inter : Option Interaction) (s : State) :
    (tick delta inter s).lastUpdateOffset = s.lastUpdateOffset := by
  cases inter <;> rfl

/-! Collision resolution: clamp-and-damp behaviour. -/

theorem rustSignum_mul_abs (x : ℝ) : x * (rustSignum x * COLLISION_DAMPING) =
    |x| * COLLISION_DAMPING := by
  rcases lt_or_le x 0 with hv | hv
  · rw [rustSignum, if_pos hv, abs_of_neg hv]; ring
  · rw [rustSignum, if_neg (not_lt.mpr hv), abs_of_nonneg hv]; ring

theorem rustSignum_mul_abs_neg (x : ℝ) : x * (-rustSignum x * COLLISION_DAMPING) =
    -(|x| * COLLISION_DAMPING) := by
  rcases lt_or_le x 0 with hv | hv
  · rw [rustSignum, if_pos hv, abs_of_neg hv]; ring
  · rw [rustSignum, if_neg (not_lt.mpr hv), abs_of_nonneg hv]; ring

theorem resolveParticle_in_box (bb : Rect) (p v : Vec2) (hlr : bb.left ≤ bb.right)
    (htb : bb.top ≤ bb.bottom) :
    bb.left ≤ (resolveParticle bb p v).1.1 ∧ (resolveParticle bb p v).1.1 ≤ bb.right ∧
      bb.top ≤ (resolveParticle bb p v).1.2 ∧ (resolveParticle bb p v).1.2 ≤ bb.bottom := by
  unfold resolveParticle
  rcases lt_or_le p.1 bb.left with c1 | c1
  · rw [if_pos c1]
    dsimp only
    rw [if_neg (not_lt.mpr hlr)]
    dsimp only
    split_ifs <;> dsimp only <;> refine ⟨by linarith, by linarith, by linarith, by linarith⟩
  · rw [if_neg (not_lt.mpr c1)]
    dsimp only
    rcases lt_or_le bb.right p.1 with c2 | c2
    · rw [if_pos c2]
      dsimp only
      split_ifs <;> dsimp only <;> refine ⟨by linarith, by linarith, by linarith, by linarith⟩
    · rw [if_neg (not_lt.mpr c2)]
      split_ifs <;> dsimp only <;> refine ⟨by linarith, by linarith, by linarith, by linarith⟩

theorem resolveParticle_right (bb : Rect) (p v : Vec2) (hlr : bb.left ≤ bb.right)
    (h : bb.right < p.1) :
    (resolveParticle bb p v).1.1 = bb.right ∧
      (resolveParticle bb p v).2.1 = -(|v.1| * COLLISION_DAMPING) := by
  have h1 : ¬p.1 < bb.left := not_lt.mpr (le_trans hlr (le_of_lt h))
  unfold resolveParticle
  rw [if_neg h1]
  dsimp only
  rw [if_pos h]
  dsimp only
  split_ifs <;> exact ⟨rfl, rustSignum_mul_abs_neg v.1⟩

theorem resolveParticle_left (bb : Rect) (p v : Vec2) (hlr : bb.left ≤ bb.right)
    (h : p.1 < bb.left) :
    (resolveParticle bb p v).1.1 = bb.left ∧
      (resolveParticle bb p v).2.1 = |v.1| * COLLISION_DAMPING := by
  unfold resolveParticle
  rw [if_pos h]
  dsimp only
  rw [if_neg (not_lt.mpr hlr)]
  dsimp only
  split_ifs <;> exact ⟨rfl, rustSignum_mul_abs v.1⟩

theorem resolveParticle_bottom (bb : Rect) (p v : Vec2) (htb : bb.top ≤ bb.bottom)
    (h : bb.bottom < p.2) :
    (resolveParticle bb p v).1.2 = bb.bottom ∧
      (resolveParticle bb p v).2.2 = -(|v.2| * COLLISION_DAMPING) := by
  have h1 : ¬p.2 < bb.top := not_lt.mpr (le_trans htb (le_of_lt h))
  unfold resolveParticle
  rcases lt_or_le p.1 bb.left with c1 | c1
  · rw [if_pos c1]
    dsimp only
    rcases lt_or_le bb.right bb.left with c2 | c2
    · rw [if_pos c2]
      dsimp only
      rw [if_neg h1]
      dsimp only
      rw [if_pos h]
      exact ⟨rfl, rustSignum_mul_abs_neg v.2⟩
    · rw [if_neg (not_lt.mpr c2)]
      dsimp only
      rw [if_neg h1]
      dsimp only
      rw [if_pos h]
      exact ⟨rfl, rustSignum_mul_abs_neg v.2⟩
  · rw [if_neg (not_lt.mpr c1)]
    dsimp only
    rcases lt_or_le bb.right p.1 with c2 | c2
    · rw [if_pos c2]
      dsimp only
      rw [if_neg h1]
      dsimp only
      rw [if_pos h]
      exact ⟨rfl, rustSignum_mul_abs_neg v.2⟩
    · rw [if_neg (not_lt.mpr c2)]
      rw [if_neg h1]
      dsimp only
      rw [if_pos h]
      exact ⟨rfl, rustSignum_mul_abs_neg v.2⟩

theorem resolveParticle_top (bb : Rect) (p v : Vec2) (htb : bb.top ≤ bb.bottom)
    (h : p.2 < bb.top) :
    (resolveParticle bb p v).1.2 = bb.top ∧
      (resolveParticle bb p v).2.2 = |v.2| * COLLISION_DAMPING := by
  unfold resolveParticle
  rcases lt_or_le p.1 bb.left with c1 | c1
  · rw [if_pos c1]
    dsimp only
    rcases lt_or_le bb.right bb.left with c2 | c2
    · rw [if_pos c2]
      dsimp only
      rw [if_pos h]
      dsimp only
      rw [if_neg (not_lt.mpr htb)]
      exact ⟨rfl, rustSignum_mul_abs v.2⟩
    · rw [if_neg (not_lt.mpr c2)]
      dsimp only
      rw [if_pos h]
      dsimp only
      rw [if_neg (not_lt.mpr htb)]
      exact ⟨rfl, rustSignum_mul_abs v.2⟩
  · rw [if_neg (not_lt.mpr c1)]
    dsimp only
    rcases lt_or_le bb.right p.1 with c2 | c2
    · rw [if_pos c2]
      dsimp only
      rw [if_pos h]
      dsimp only
      rw [if_neg (not_lt.mpr htb)]
      exact ⟨rfl, rustSignum_mul_abs v.2⟩
    · rw [if_neg (not_lt.mpr c2)]
      rw [if_pos h]
      dsimp only
      rw [if_neg (not_lt.mpr htb)]
      exact ⟨rfl, rustSignum_mul_abs v.2⟩

@[simp] theorem applyInteraction_n (inter : Option Interaction) (s : State) :
    (applyInteraction inter s).n = s.n := by
  cases inter <;> rfl

@[simp] theorem applyInteraction_positions (inter : Option Interaction) (s : State) :
    (applyInteraction inter s).positions = s.positions := by
  cases inter <;> rfl

@[simp] theorem applyInteraction_predicted (inter : Option Interaction) (s : State) :
    (applyInteraction inter s).predictedPositions = s.predictedPositions := by
  cases inter <;> rfl

@[simp] theorem applyInteraction_densities (inter : Option Interaction) (s : State) :
    (applyInteraction inter s).densities = s.densities := by
  cases inter <;> rfl

@[simp] theorem applyInteraction_boundingBox (inter : Option Interaction) (s : State) :
    (applyInteraction inter s).boundingBox = s.boundingBox := by
  cases inter <;> rfl

@[simp] theorem applyInteraction_rng (inter : Option Interaction) (s : State) :
    (applyInteraction inter s).rng = s.rng := by
  cases inter <;> rfl

@[simp] theorem applyInteraction_rngIndex (inter : Option Interaction) (s : State) :
    (applyInteraction inter s).rngIndex = s.rngIndex := by
  cases inter <;> rfl

@[simp] theorem applyInteraction_spatialLookup (inter : Option Interaction) (s : State) :
    (applyInteraction inter s).spatialLookup = s.spatialLookup := by
  cases inter <;> rfl

@[simp] theorem applyInteraction_startIndices (inter : Option Interaction) (s : State) :
    (applyInteraction inter s).startIndices = s.startIndices := by
  cases inter <;> rfl

@[simp] theorem applyInteraction_lastUpdateOffset (inter : Option Interaction) (s : State) :
    (applyInteraction inter s).lastUpdateOffset = s.lastUpdateOffset := by
  cases inter <;> rfl

/-- C6: after every collision-resolution pass — and hence at the end of every
tick, whose last stage is resolve_collisions — every particle's position lies
within the bounding box on both axes (for a non-degenerate box). -/
theorem claim_C6_positions_in_box (s : State) (i : ℕ) (hi : i < s.n)
    (hlr : s.boundingBox.left ≤ s.boundingBox.right)
    (htb : s.boundingBox.top ≤ s.boundingBox.bottom) (delta : ℚ) (inter : Option Interaction) :
    (s.boundingBox.left ≤ ((resolve_collisions s).positions i).1 ∧
      ((resolve_collisions s).positions i).1 ≤ s.boundingBox.right ∧
      s.boundingBox.top ≤ ((resolve_collisions s).positions i).2 ∧
      ((resolve_collisions s).positions i).2 ≤ s.boundingBox.bottom) ∧
    (s.boundingBox.left ≤ ((tick delta inter s).positions i).1 ∧
      ((tick delta inter s).positions i).1 ≤ s.boundingBox.right ∧
      s.boundingBox.top ≤ ((tick delta inter s).positions i).2 ∧
      ((tick delta inter s).positions i).2 ≤ s.boundingBox.bottom) := by
  constructor
  · rw [resolve_positions s i hi]
    exact resolveParticle_in_box _ _ _ hlr htb
  · have hm : tick delta inter s = resolve_collisions (moveParticles delta (velocityPass delta
        (calculateDensities (predictPositions (update_spatial_lookup
          (applyInteraction inter s)))))) := rfl
    set m := moveParticles delta (velocityPass delta (calculateDensities
      (predictPositions (update_spatial_lookup (applyInteraction inter s))))) with hmdef
    have hmn : m.n = s.n := by simp [hmdef]
    have hmbb : m.boundingBox = s.boundingBox := by simp [hmdef]
    rw [hm, resolve_positions m i (by rw [hmn]; exact hi), hmbb]
    exact resolveParticle_in_box _ _ _ hlr htb

/-- C6 witness at a concrete state. -/
theorem claim_C6_positions_in_box_witness :
    0 < oneParticle.n ∧ oneParticle.boundingBox.left ≤ oneParticle.boundingBox.right ∧
      oneParticle.boundingBox.top ≤ oneParticle.boundingBox.bottom ∧
      (oneParticle.boundingBox.left ≤ ((resolve_collisions oneParticle).positions 0).1 ∧
        ((resolve_collisions oneParticle).positions 0).1 ≤ oneParticle.boundingBox.right ∧
        oneParticle.boundingBox.top ≤ ((resolve_collisions oneParticle).positions 0).2 ∧
        ((resolve_collisions oneParticle).positions 0).2 ≤ oneParticle.boundingBox.bottom) :=
  ⟨Nat.zero_lt_one, by norm_num [oneParticle, Rect.left, Rect.right],
    by norm_num [oneParticle, Rect.top, Rect.bottom],
    (claim_C6_positions_in_box oneParticle 0 Nat.zero_lt_one
      (by norm_num [oneParticle, Rect.left, Rect.right])
      (by norm_num [oneParticle, Rect.top, Rect.bottom]) TICK_DELTA none).1⟩

/-- C4 counterexample: a particle at bounding_box.right + 1 whose x-velocity
already points inward (negative). The claim says the velocity component
becomes −v·c (which would be +1.5 here); the code computes v·c = −1.5: the
sign is not flipped. -/
theorem claim_C4_counterexample :
    ((resolve_collisions beyondRightInward).velocities 0).1 ≠
      -(beyondRightInward.velocities 0).1 * COLLISION_DAMPING ∧
    ((resolve_collisions beyondRightInward).velocities 0).1 =
      (beyondRightInward.velocities 0).1 * COLLISION_DAMPING := by
  have h0 : (0 : ℕ) < beyondRightInward.n := Nat.zero_lt_one
  have hrv := resolveParticle_right beyondRightInward.boundingBox
    (beyondRightInward.positions 0) (beyondRightInward.velocities 0)
    (by norm_num [beyondRightInward, Rect.left, Rect.right])
    (by norm_num [beyondRightInward, Rect.right])
  rw [resolve_velocities beyondRightInward 0 h0]
  rw [hrv.2]
  norm_num [beyondRightInward, COLLISION_DAMPING]

/-- C4 amended: for each axis independently, a particle beyond a boundary is
clamped to it and its velocity component becomes the damped magnitude
directed back into the box: −|v|·c beyond the right/bottom walls and +|v|·c
beyond the left/top walls. This equals the claimed −v·c only when the
velocity points outward; an inward component is damped without a sign flip. -/
theorem claim_C4_clamp_damp (s : State) (i : ℕ) (hi : i < s.n)
    (hlr : s.boundingBox.left ≤ s.boundingBox.right)
    (htb : s.boundingBox.top ≤ s.boundingBox.bottom) :
    (s.boundingBox.right < (s.positions i).1 →
      ((resolve_collisions s).positions i).1 = s.boundingBox.right ∧
      ((resolve_collisions s).velocities i).1 = -(|(s.velocities i).1| * COLLISION_DAMPING)) ∧
    ((s.positions i).1 < s.boundingBox.left →
      ((resolve_collisions s).positions i).1 = s.boundingBox.left ∧
      ((resolve_collisions s).velocities i).1 = |(s.velocities i).1| * COLLISION_DAMPING) ∧
    (s.boundingBox.bottom < (s.positions i).2 →
      ((resolve_collisions s).positions i).2 = s.boundingBox.bottom ∧
      ((resolve_collisions s).velocities i).2 = -(|(s.velocities i).2| * COLLISION_DAMPING)) ∧
    ((s.positions i).2 < s.boundingBox.top →
      ((resolve_collisions s).positions i).2 = s.boundingBox.top ∧
      ((resolve_collisions s).velocities i).2 = |(s.velocities i).2| * COLLISION_DAMPING) := by
  rw [resolve_positions s i hi, resolve_velocities s i hi]
  exact ⟨fun h => ⟨(resolveParticle_right _ _ _ hlr h).1, (resolveParticle_right _ _ _ hlr h).2⟩,
    fun h => ⟨(resolveParticle_left _ _ _ hlr h).1, (resolveParticle_left _ _ _ hlr h).2⟩,
    fun h => ⟨(resolveParticle_bottom _ _ _ htb h).1, (resolveParticle_bottom _ _ _ htb h).2⟩,
    fun h => ⟨(resolveParticle_top _ _ _ htb h).1, (resolveParticle_top _ _ _ htb h).2⟩⟩

/-- C4 witness: the right-wall case of the amended theorem at a concrete
state, matching the claim's own scenario direction (outward velocity would
additionally flip). -/
theorem claim_C4_clamp_damp_witness :
    (0 : ℕ) < beyondRightInward.n ∧
      beyondRightInward.boundingBox.left ≤ beyondRightInward.boundingBox.right ∧
      beyondRightInward.boundingBox.top ≤ beyondRightInward.boundingBox.bottom ∧
      (beyondRightInward.boundingBox.right < (beyondRightInward.positions 0).1 →
        ((resolve_collisions beyondRightInward).positions 0).1 =
          beyondRightInward.boundingBox.right ∧
        ((resolve_collisions beyondRightInward).velocities 0).1 =
          -(|(beyondRightInward.velocities 0).1| * COLLISION_DAMPING)) :=
  ⟨Nat.zero_lt_one, by norm_num [beyondRightInward, Rect.left, Rect.right],
    by norm_num [beyondRightInward, Rect.top, Rect.bottom],
    (claim_C4_clamp_damp beyondRightInward 0 Nat.zero_lt_one
      (by norm_num [beyondRightInward, Rect.left, Rect.right])
      (by norm_num [beyondRightInward, Rect.top, Rect.bottom])).1⟩

/-! The fixed-timestep scheduler. -/

theorem tickDelta_pos : (0 : ℚ) < TICK_DELTA := by norm_num [TICK_DELTA, TICK_RATE]

theorem updateAux_eq_iterate {σ : Type} (f : σ → σ) (endT t : ℚ) (s : σ) :
    updateAux f endT t s = f^[(⌈(endT - t) / TICK_DELTA⌉).toNat] s := by
  generalize hk : (⌈(endT - t) / TICK_DELTA⌉).toNat = k
  induction k generalizing t s with
  | zero =>
    rw [updateAux, dif_neg, Function.iterate_zero_apply]
    intro hlt
    have hx : 0 < (endT - t) / TICK_DELTA := div_pos (by linarith) tickDelta_pos
    have hcl := Int.ceil_pos.mpr hx
    omega
  | succ k ih =>
    have hlt : t < endT := by
      by_contra hnl
      have hx : (endT - t) / TICK_DELTA ≤ 0 := by
        rw [div_nonpos_iff]
        right
        exact ⟨by linarith, le_of_lt tickDelta_pos⟩
      have hcl : ⌈(endT - t) / TICK_DELTA⌉ ≤ 0 := Int.ceil_le.mpr (by push_cast; linarith)
      omega
    have hk' : (⌈(endT - (t + TICK_DELTA)) / TICK_DELTA⌉).toNat = k := by
      have h0 : TICK_DELTA ≠ 0 := ne_of_gt tickDelta_pos
      have h1 : (endT - (t + TICK_DELTA)) / TICK_DELTA = (endT - t) / TICK_DELTA - 1 := by
        field_simp
        ring
      rw [h1, Int.ceil_sub_one]
      have hx : 0 < (endT - t) / TICK_DELTA := div_pos (by linarith) tickDelta_pos
      have hcl := Int.ceil_pos.mpr hx
      omega
    rw [updateAux, dif_pos hlt, ih _ _ hk', ← Function.iterate_succ_apply]

/-- C1 amended: one update call executes one tick for each positive multiple
of TICK_DELTA lying strictly below leftover + elapsed — that is,
⌈budget/Δt⌉ − 1 ticks rather than ⌊budget/Δt⌋ — and stores
budget mod TICK_DELTA as the new leftover. At a budget that is an exact
multiple of Δt (such as elapsed = 3·Δt from leftover 0) this is one tick
fewer than one-per-full-Δt; for 3·Δt < budget < 4·Δt it does perform exactly
three ticks. -/
theorem claim_C1_update_schedule (s : State) (deltaTime : ℚ) (inter : Option Interaction) :
    update s deltaTime inter =
      { (tick TICK_DELTA inter)^[(⌈(s.lastUpdateOffset + deltaTime) / TICK_DELTA⌉ - 1).toNat] s
          with lastUpdateOffset := rustRem (s.lastUpdateOffset + deltaTime) TICK_DELTA } := by
  have h0 : TICK_DELTA ≠ 0 := ne_of_gt tickDelta_pos
  have h1 : (s.lastUpdateOffset + deltaTime - TICK_DELTA) / TICK_DELTA =
      (s.lastUpdateOffset + deltaTime) / TICK_DELTA - 1 := by
    field_simp
  show { updateAux (tick TICK_DELTA inter) (s.lastUpdateOffset + deltaTime) TICK_DELTA s
      with lastUpdateOffset := rustRem (s.lastUpdateOffset + deltaTime) TICK_DELTA } = _
  rw [updateAux_eq_iterate, h1, Int.ceil_sub_one]

/-- A particle untouched by any wall is unchanged by the collision pass. -/
theorem resolveParticle_id (bb : Rect) (p v : Vec2) (h1 : bb.left ≤ p.1) (h2 : p.1 ≤ bb.right)
    (h3 : bb.top ≤ p.2) (h4 : p.2 ≤ bb.bottom) : resolveParticle bb p v = (p, v) := by
  unfold resolveParticle
  rw [if_neg (not_lt.mpr h1)]
  dsimp only
  rw [if_neg (not_lt.mpr h2)]
  rw [if_neg (not_lt.mpr h3)]
  rw [if_neg (not_lt.mpr h4)]

/-- In a one-particle state the pressure loop skips its only index, so the
velocity pass leaves the velocities unchanged. -/
theorem velocityPass_single (delta : ℚ) (s : State) (hn : s.n = 1) :
    (velocityPass delta s).velocities = s.velocities := by
  have hr1 : List.range 1 = [0] := rfl
  have hpf : calculate_pressure_force s s.rngIndex 0 = ((0, 0), s.rngIndex) := by
    unfold calculate_pressure_force
    rw [hn, hr1, List.foldl_cons, List.foldl_nil]
    simp [pressureStep]
  have hz : vdivs ((0 : ℝ), (0 : ℝ)) (s.densities 0) = ((0 : ℝ), (0 : ℝ)) := by
    simp [vdivs]
  unfold velocityPass
  rw [hn, hr1]
  dsimp only
  rw [List.foldl_cons, List.foldl_nil]
  dsimp only
  rw [hpf]
  dsimp only
  rw [hz]
  have hsz : ((delta : ℚ) : ℝ) • (((0 : ℝ), (0 : ℝ)) : Vec2) = (0 : Vec2) := by
    rw [show (((0 : ℝ), (0 : ℝ)) : Vec2) = (0 : Vec2) from rfl, smul_zero]
  rw [hsz, add_zero, Function.update_eq_self]

/-- One tick of a one-particle state that stays inside the box: the particle
translates by TICK_DELTA · velocity, keeping its velocity. -/
theorem tick_single (s : State) (hn : s.n = 1)
    (hb1 : s.boundingBox.left ≤ (s.positions 0 + ((TICK_DELTA : ℚ) : ℝ) • s.velocities 0).1)
    (hb2 : (s.positions 0 + ((TICK_DELTA : ℚ) : ℝ) • s.velocities 0).1 ≤ s.boundingBox.right)
    (hb3 : s.boundingBox.top ≤ (s.positions 0 + ((TICK_DELTA : ℚ) : ℝ) • s.velocities 0).2)
    (hb4 : (s.positions 0 + ((TICK_DELTA : ℚ) : ℝ) • s.velocities 0).2 ≤ s.boundingBox.bottom) :
    (tick TICK_DELTA none s).positions 0 =
        s.positions 0 + ((TICK_DELTA : ℚ) : ℝ) • s.velocities 0 ∧
      (tick TICK_DELTA none s).velocities 0 = s.velocities 0 ∧
      (tick TICK_DELTA none s).n = 1 ∧
      (tick TICK_DELTA none s).boundingBox = s.boundingBox := by
  have ht : tick TICK_DELTA none s = resolve_collisions (moveParticles TICK_DELTA
      (velocityPass TICK_DELTA (calculateDensities (predictPositions
        (update_spatial_lookup s))))) := rfl
  set s4 := calculateDensities (predictPositions (update_spatial_lookup s)) with hs4
  have hs4n : s4.n = s.n := by simp [hs4]
  have hs4pos : s4.positions = s.positions := by simp [hs4]
  have hs4vel : s4.velocities = s.velocities := by simp [hs4]
  have hs4bb : s4.boundingBox = s.boundingBox := by simp [hs4]
  set s5 := velocityPass TICK_DELTA s4 with hs5
  have hs5vel : s5.velocities = s.velocities := by
    rw [hs5, velocityPass_single _ _ (by rw [hs4n, hn]), hs4vel]
  have hs5n : s5.n = s.n := by simp [hs5, hs4n]
  have hs5pos : s5.positions = s.positions := by simp [hs5, hs4pos]
  have hs5bb : s5.boundingBox = s.boundingBox := by simp [hs5, hs4bb]
  set s6 := moveParticles TICK_DELTA s5 with hs6
  have hs6n : s6.n = s.n := by simp [hs6, hs5n]
  have hs6bb : s6.boundingBox = s.boundingBox := by simp [hs6, hs5bb]
  have hs6vel : s6.velocities = s.velocities := by simp [hs6, hs5vel]
  have hs6pos : s6.positions 0 = s.positions 0 + ((TICK_DELTA : ℚ) : ℝ) • s.velocities 0 := by
    rw [hs6, move_positions _ _ 0 (by rw [hs5n, hn]; exact Nat.zero_lt_one), hs5pos, hs5vel]
  have hres := resolveParticle_id s.boundingBox
    (s.positions 0 + ((TICK_DELTA : ℚ) : ℝ) • s.velocities 0) (s.velocities 0) hb1 hb2 hb3 hb4
  constructor
  · rw [ht, resolve_positions s6 0 (by rw [hs6n, hn]; exact Nat.zero_lt_one), hs6bb, hs6pos,
      hs6vel, hres]
  constructor
  · rw [ht, resolve_velocities s6 0 (by rw [hs6n, hn]; exact Nat.zero_lt_one), hs6bb, hs6pos,
      hs6vel, hres]
  constructor
  · rw [ht, resolve_n, hs6n, hn]
  · rw [ht, resolve_boundingBox, hs6bb]

theorem tickDelta_real : ((TICK_DELTA : ℚ) : ℝ) = 1 / 30 := by
  norm_num [TICK_DELTA, TICK_RATE]

/-- C1 counterexample: from leftover 0, one update with elapsed = 3·Δt on a
one-particle state executes only two ticks, so the particle's x-coordinate is
1 + 2/30, while three direct ticks put it at 1 + 3/30. -/
theorem claim_C1_counterexample :
    ((update oneParticle (3 * TICK_DELTA) none).positions 0).1 ≠
      ((tick TICK_DELTA none (tick TICK_DELTA none (tick TICK_DELTA none
        oneParticle))).positions 0).1 := by
  have hp0 : oneParticle.positions 0 = ((1 : ℝ), (1 : ℝ)) := rfl
  have hv0 : oneParticle.velocities 0 = ((1 : ℝ), (0 : ℝ)) := rfl
  have hbb : oneParticle.boundingBox = ⟨0, 0, 16, 9⟩ := rfl
  have hstep : ∀ x : ℝ, ((x, (1 : ℝ)) : Vec2) + ((TICK_DELTA : ℚ) : ℝ) • ((1 : ℝ), (0 : ℝ)) =
      (x + 1 / 30, 1) := by
    intro x
    rw [tickDelta_real]
    simp [Prod.ext_iff]
  -- first tick
  have h1 := tick_single oneParticle rfl
    (by rw [hp0, hv0, hstep, hbb]; norm_num [Rect.left])
    (by rw [hp0, hv0, hstep, hbb]; norm_num [Rect.right])
    (by rw [hp0, hv0, hstep, hbb]; norm_num [Rect.top])
    (by rw [hp0, hv0, hstep, hbb]; norm_num [Rect.bottom])
  set t1 := tick TICK_DELTA none oneParticle with ht1
  have h1p : t1.positions 0 = (1 + 1 / 30, 1) := by rw [ht1, h1.1, hp0, hv0, hstep]
  have h1v : t1.velocities 0 = ((1 : ℝ), (0 : ℝ)) := by rw [ht1, h1.2.1, hv0]
  have h1n : t1.n = 1 := h1.2.2.1
  have h1bb : t1.boundingBox = ⟨0, 0, 16, 9⟩ := by rw [ht1, h1.2.2.2, hbb]
  -- second tick
  have h2 := tick_single t1 h1n
    (by rw [h1p, h1v, hstep, h1bb]; norm_num [Rect.left])
    (by rw [h1p, h1v, hstep, h1bb]; norm_num [Rect.right])
    (by rw [h1p, h1v, hstep, h1bb]; norm_num [Rect.top])
    (by rw [h1p, h1v, hstep, h1bb]; norm_num [Rect.bottom])
  set t2 := tick TICK_DELTA none t1 with ht2
  have h2p : t2.positions 0 = (1 + 1 / 30 + 1 / 30, 1) := by rw [ht2, h2.1, h1p, h1v, hstep]
  have h2v : t2.velocities 0 = ((1 : ℝ), (0 : ℝ)) := by rw [ht2, h2.2.1, h1v]
  have h2n : t2.n = 1 := h2.2.2.1
  have h2bb : t2.boundingBox = ⟨0, 0, 16, 9⟩ := by rw [ht2, h2.2.2.2, h1bb]
  -- third tick
  have h3 := tick_single t2 h2n
    (by rw [h2p, h2v, hstep, h2bb]; norm_num [Rect.left])
    (by rw [h2p, h2v, hstep, h2bb]; norm_num [Rect.right])
    (by rw [h2p, h2v, hstep, h2bb]; norm_num [Rect.top])
    (by rw [h2p, h2v, hstep, h2bb]; norm_num [Rect.bottom])
  have h3p : (tick TICK_DELTA none t2).positions 0 = (1 + 1 / 30 + 1 / 30 + 1 / 30, 1) := by
    rw [h3.1, h2p, h2v, hstep]
  -- the update side: exactly two ticks
  have hk : (⌈(oneParticle.lastUpdateOffset + 3 * TICK_DELTA) / TICK_DELTA⌉ - 1).toNat = 2 := by
    have hoff : oneParticle.lastUpdateOffset = 0 := rfl
    rw [hoff]
    norm_num [TICK_DELTA, TICK_RATE]
    decide
  have hupd : (update oneParticle (3 * TICK_DELTA) none).positions 0 = t2.positions 0 := by
    rw [claim_C1_update_schedule, hk]
    show ((tick TICK_DELTA none)^[2] oneParticle).positions 0 = _
    rw [Function.iterate_succ_apply, Function.iterate_one]
  rw [hupd, h2p, h3p]
  norm_num

/-! The start-index scan of update_spatial_lookup. -/

theorem scanStarts_skip (L : List (ℕ × ℕ)) (k : ℕ) :
    ∀ fuel i si, L.length - i ≤ fuel →
      (∀ j, i ≤ j → j < L.length → isBoundary L j → keyAt L j ≠ k) →
      scanStarts L i si k = si k := by
  intro fuel
  induction fuel with
  | zero =>
    intro i si hle _hnb
    rw [scanStarts, dif_neg (by omega)]
  | succ fuel ih =>
    intro i si hle hnb
    by_cases hi : i < L.length
    · rw [scanStarts, dif_pos hi]
      rw [ih (i + 1) _ (by omega) fun j hj hjl hb => hnb j (by omega) hjl hb]
      by_cases hb : isBoundary L i
      · have hb' : keyAt L i ≠ if i = 0 then USIZE_MAX else keyAt L (i - 1) := hb
        rw [if_pos hb']
        exact Function.update_noteq (Ne.symm (hnb i le_rfl hi hb)) i si
      · have hb' : ¬keyAt L i ≠ if i = 0 then USIZE_MAX else keyAt L (i - 1) := hb
        rw [if_neg hb']
    · rw [scanStarts, dif_neg hi]

theorem scanStarts_write (L : List (ℕ × ℕ)) (k j0 : ℕ) (hj0l : j0 < L.length)
    (hj0b : isBoundary L j0) (hj0k : keyAt L j0 = k) :
    ∀ fuel i si, L.length - i ≤ fuel → i ≤ j0 →
      (∀ j, i ≤ j → j < L.length → isBoundary L j → keyAt L j = k → j = j0) →
      scanStarts L i si k = j0 := by
  intro fuel
  induction fuel with
  | zero =>
    intro i si hle hij _hun
    omega
  | succ fuel ih =>
    intro i si hle hij hun
    have hi : i < L.length := lt_of_le_of_lt hij hj0l
    rw [scanStarts, dif_pos hi]
    by_cases heq : i = j0
    · subst heq
      have hb' : keyAt L i ≠ if i = 0 then USIZE_MAX else keyAt L (i - 1) := hj0b
      rw [if_pos hb']
      have hno : ∀ j, i + 1 ≤ j → j < L.length → isBoundary L j → keyAt L j ≠ k := by
        intro j hj hjl hb hk
        have := hun j (by omega) hjl hb hk
        omega
      rw [scanStarts_skip L k L.length (i + 1) _ (by omega) hno, hj0k]
      exact Function.update_same k i si
    · have hlt : i < j0 := lt_of_le_of_ne hij heq
      exact ih (i + 1) _ (by omega) (by omega)
        fun j hj hjl hb hk => hun j (by omega) hjl hb hk

/-! Sortedness of the rebuilt lookup. -/

theorem keyAt_eq_get (L : List (ℕ × ℕ)) (i : ℕ) (h : i < L.length) :
    keyAt L i = (L.get ⟨i, h⟩).2 := by
  unfold keyAt
  rw [List.getD_eq_get? , List.get?_eq_get h]
  rfl

theorem sorted_keyAt_mono {L : List (ℕ × ℕ)} (hs : List.Sorted leKey L) {i j : ℕ}
    (hij : i ≤ j) (hj : j < L.length) : keyAt L i ≤ keyAt L j := by
  rcases eq_or_lt_of_le hij with rfl | hlt
  · exact le_rfl
  · have hi : i < L.length := lt_trans hlt hj
    rw [keyAt_eq_get L i hi, keyAt_eq_get L j hj]
    exact hs.rel_get_of_lt hlt

/-- Between two equal keys in a sorted lookup, every key is the same. -/
theorem sorted_keyAt_between {L : List (ℕ × ℕ)} (hs : List.Sorted leKey L) {a b c : ℕ}
    (hab : a ≤ b) (hbc : b ≤ c) (hc : c < L.length) (hac : keyAt L a = keyAt L c) :
    keyAt L b = keyAt L a := by
  have h1 : keyAt L a ≤ keyAt L b := sorted_keyAt_mono hs hab (lt_of_le_of_lt hbc hc)
  have h2 : keyAt L b ≤ keyAt L c := sorted_keyAt_mono hs hbc hc
  omega

/-- In a sorted lookup, two distinct boundaries carry distinct keys. -/
theorem sorted_boundary_key_injective {L : List (ℕ × ℕ)} (hs : List.Sorted leKey L)
    {j1 j2 : ℕ} (h1 : j1 < L.length) (h2 : j2 < L.length) (hb1 : isBoundary L j1)
    (hb2 : isBoundary L j2) (hne : j1 ≠ j2) : keyAt L j1 ≠ keyAt L j2 := by
  wlog hlt : j1 < j2 generalizing j1 j2
  · exact (this h2 h1 hb2 hb1 (Ne.symm hne) (by omega)).symm
  intro hkey
  have hj2pos : j2 ≠ 0 := by omega
  unfold isBoundary at hb2
  rw [if_neg hj2pos] at hb2
  have hle1 : keyAt L j1 ≤ keyAt L (j2 - 1) := sorted_keyAt_mono hs (by omega) (by omega)
  have hle2 : keyAt L (j2 - 1) ≤ keyAt L j2 := sorted_keyAt_mono hs (by omega) h2
  omega

/-- A first occurrence of its key is a boundary (keys below usize::MAX). -/
theorem first_occurrence_isBoundary {L : List (ℕ × ℕ)} {i : ℕ} (hi : i < L.length)
    (hmax : keyAt L i ≠ USIZE_MAX) (hfirst : ∀ j, j < i → keyAt L j ≠ keyAt L i) :
    isBoundary L i := by
  unfold isBoundary
  by_cases h0 : i = 0
  · rw [if_pos h0]
    exact hmax
  · rw [if_neg h0]
    exact Ne.symm (hfirst (i - 1) (by omega))

theorem usl_length (s : State) : (update_spatial_lookup s).spatialLookup.length = s.n := by
  rw [usl_spatialLookup, List.length_insertionSort, List.length_map, List.length_range]

theorem usl_sorted (s : State) : List.Sorted leKey (update_spatial_lookup s).spatialLookup := by
  rw [usl_spatialLookup]
  exact List.sorted_insertionSort leKey _

theorem usl_perm (s : State) :
    (update_spatial_lookup s).spatialLookup.Perm ((List.range s.n).map fun i =>
      (i, create_cell_hash (world_pos_to_cell_pos (s.positions i) SMOOTHING_RADIUS) % s.n)) := by
  rw [usl_spatialLookup]
  exact List.perm_insertionSort leKey _

theorem usl_mem_iff (s : State) (e : ℕ × ℕ) :
    e ∈ (update_spatial_lookup s).spatialLookup ↔ ∃ i, i < s.n ∧
      e = (i, create_cell_hash (world_pos_to_cell_pos (s.positions i) SMOOTHING_RADIUS) % s.n) := by
  rw [(usl_perm s).mem_iff, List.mem_map]
  constructor
  · rintro ⟨i, hi, rfl⟩
    exact ⟨i, List.mem_range.mp hi, rfl⟩
  · rintro ⟨i, hi, rfl⟩
    exact ⟨i, List.mem_range.mpr hi, rfl⟩

theorem usl_keyAt_lt (s : State) (i : ℕ)
    (h : i < (update_spatial_lookup s).spatialLookup.length) :
    keyAt (update_spatial_lookup s).spatialLookup i < s.n := by
  have hn : 0 < s.n := by
    have := h
    rw [usl_length] at this
    omega
  have hmem := List.get_mem (update_spatial_lookup s).spatialLookup i h
  rw [keyAt_eq_get _ _ h]
  obtain ⟨j, _hj, he⟩ := (usl_mem_iff s _).mp hmem
  rw [he]
  exact Nat.mod_lt _ hn

/-- After a rebuild, the start index of an occupied key is the first index
of its run. -/
theorem usl_start_first (s : State) (h64 : s.n < 2 ^ 64) (i : ℕ)
    (hi : i < (update_spatial_lookup s).spatialLookup.length)
    (hfirst : ∀ j, j < i → keyAt (update_spatial_lookup s).spatialLookup j ≠
      keyAt (update_spatial_lookup s).spatialLookup i) :
    (update_spatial_lookup s).startIndices
      (keyAt (update_spatial_lookup s).spatialLookup i) = i := by
  have hs : List.Sorted leKey (update_spatial_lookup s).spatialLookup := usl_sorted s
  have hklt := usl_keyAt_lt s i hi
  have hmax : keyAt (update_spatial_lookup s).spatialLookup i ≠ USIZE_MAX := by
    unfold USIZE_MAX
    omega
  have hb := first_occurrence_isBoundary hi hmax hfirst
  have hun : ∀ j, 0 ≤ j → j < (update_spatial_lookup s).spatialLookup.length →
      isBoundary (update_spatial_lookup s).spatialLookup j →
      keyAt (update_spatial_lookup s).spatialLookup j =
        keyAt (update_spatial_lookup s).spatialLookup i → j = i := by
    intro j _ hjl hbj hkj
    by_contra hne
    exact sorted_boundary_key_injective hs hjl hi hbj hb hne hkj
  rw [usl_startIndices s]
  exact scanStarts_write _ _ i hi hb rfl
    (update_spatial_lookup s).spatialLookup.length 0 _ (by omega) (by omega) hun

/-- After a rebuild, a key with no entries keeps the sentinel. -/
theorem usl_start_empty (s : State) (k : ℕ)
    (hnone : ∀ i, i < (update_spatial_lookup s).spatialLookup.length →
      keyAt (update_spatial_lookup s).spatialLookup i ≠ k) :
    (update_spatial_lookup s).startIndices k = USIZE_MAX := by
  rw [usl_startIndices s]
  exact scanStarts_skip _ k (update_spatial_lookup s).spatialLookup.length 0 _ (by omega)
    fun j _ hjl _ => hnone j hjl

/-- C9: after every rebuild of the spatial lookup, (a) entries sharing a
cell key are contiguous in the sorted list, (b) for every occupied key the
start_indices entry is the index of the first entry of that key's run, and
(c) every key with no particles keeps the usize::MAX sentinel. -/
theorem claim_C9_spatial_lookup_invariants (s : State) (h64 : s.n < 2 ^ 64) :
    (∀ a b c : ℕ, a ≤ b → b ≤ c → c < (update_spatial_lookup s).spatialLookup.length →
      keyAt (update_spatial_lookup s).spatialLookup a =
        keyAt (update_spatial_lookup s).spatialLookup c →
      keyAt (update_spatial_lookup s).spatialLookup b =
        keyAt (update_spatial_lookup s).spatialLookup a) ∧
    (∀ i, i < (update_spatial_lookup s).spatialLookup.length →
      (∀ j, j < i → keyAt (update_spatial_lookup s).spatialLookup j ≠
        keyAt (update_spatial_lookup s).spatialLookup i) →
      (update_spatial_lookup s).startIndices
        (keyAt (update_spatial_lookup s).spatialLookup i) = i) ∧
    (∀ k, (∀ i, i < (update_spatial_lookup s).spatialLookup.length →
      keyAt (update_spatial_lookup s).spatialLookup i ≠ k) →
      (update_spatial_lookup s).startIndices k = USIZE_MAX) := by
  refine ⟨?_, ?_, ?_⟩
  · intro a b c hab hbc hc hac
    exact sorted_keyAt_between (usl_sorted s) hab hbc hc hac
  · intro i hi hfirst
    exact usl_start_first s h64 i hi hfirst
  · intro k hnone
    exact usl_start_empty s k hnone

/-- C9 witness at a concrete state. -/
theorem claim_C9_witness :
    oneParticle.n < 2 ^ 64 ∧
      (∀ k, (∀ i, i < (update_spatial_lookup oneParticle).spatialLookup.length →
        keyAt (update_spatial_lookup oneParticle).spatialLookup i ≠ k) →
        (update_spatial_lookup oneParticle).startIndices k = USIZE_MAX) :=
  ⟨by norm_num [oneParticle],
    (claim_C9_spatial_lookup_invariants oneParticle (by norm_num [oneParticle])).2.2⟩

/-! The neighbour query. -/

theorem smoothing_radius_pos : (0 : ℝ) < SMOOTHING_RADIUS := by
  norm_num [SMOOTHING_RADIUS]

theorem component_bound (x y r : ℝ) (hr : 0 ≤ r) (h : x * x + y * y ≤ r * r) : |x| ≤ r := by
  rw [abs_le]
  constructor <;> nlinarith [sq_nonneg y, sq_nonneg (x - r), sq_nonneg (x + r)]

theorem floor_div_near (a b r : ℝ) (hr : 0 < r) (h : |a - b| ≤ r) :
    ⌊b / r⌋ - 1 ≤ ⌊a / r⌋ ∧ ⌊a / r⌋ ≤ ⌊b / r⌋ + 1 := by
  rw [abs_le] at h
  constructor
  · have h1 : b / r - 1 ≤ a / r := by
      rw [div_sub' _ _ _ (ne_of_gt hr)]
      exact (div_le_div_right hr).mpr (by linarith)
    calc ⌊b / r⌋ - 1 = ⌊b / r - 1⌋ := by
          rw [Int.floor_sub_one]
      _ ≤ ⌊a / r⌋ := Int.floor_le_floor h1
  · have h1 : a / r ≤ b / r + 1 := by
      rw [div_add' _ _ _ (ne_of_gt hr)]
      exact (div_le_div_right hr).mpr (by linarith)
    calc ⌊a / r⌋ ≤ ⌊b / r + 1⌋ := Int.floor_le_floor h1
      _ = ⌊b / r⌋ + 1 := by rw [Int.floor_add_one]

theorem mem_OFFSETS (d : ℤ × ℤ) (h1 : -1 ≤ d.1) (h2 : d.1 ≤ 1) (h3 : -1 ≤ d.2)
    (h4 : d.2 ≤ 1) : d ∈ OFFSETS := by
  obtain ⟨a, b⟩ := d
  simp only at h1 h2 h3 h4
  unfold OFFSETS
  interval_cases a <;> interval_cases b <;> simp

theorem getD_mem (l : List (ℕ × ℕ)) (i : ℕ) (d : ℕ × ℕ) (h : i < l.length) : l.getD i d ∈ l := by
  rw [List.getD_eq_get? , List.get?_eq_get h, Option.getD_some]
  exact List.get_mem l i h

theorem scanCell_subset (s : State) (q : Vec2) (r2 : ℝ) (k : ℕ) :
    ∀ fuel i j, s.spatialLookup.length - i ≤ fuel → j ∈ scanCell s q r2 k i →
      (∃ e ∈ s.spatialLookup, e.1 = j) ∧ lengthSquared (s.positions j - q) ≤ r2 := by
  intro fuel
  induction fuel with
  | zero =>
    intro i j hle hmem
    rw [scanCell, dif_neg (by omega)] at hmem
    exact absurd hmem (List.not_mem_nil j)
  | succ fuel ih =>
    intro i j hle hmem
    by_cases hi : i < s.spatialLookup.length
    · rw [scanCell, dif_pos hi] at hmem
      by_cases hk : (s.spatialLookup.getD i (0, 0)).2 ≠ k
      · rw [if_pos hk] at hmem
        exact absurd hmem (List.not_mem_nil j)
      · rw [if_neg hk, List.mem_append] at hmem
        rcases hmem with hmem | hmem
        · by_cases hd : lengthSquared (s.positions (s.spatialLookup.getD i (0, 0)).1 - q) ≤ r2
          · rw [if_pos hd, List.mem_singleton] at hmem
            subst hmem
            exact ⟨⟨s.spatialLookup.getD i (0, 0), getD_mem _ _ _ hi, rfl⟩, hd⟩
          · rw [if_neg hd] at hmem
            exact absurd hmem (List.not_mem_nil j)
        · exact ih (i + 1) j (by omega) hmem
    · rw [scanCell, dif_neg hi] at hmem
      exact absurd hmem (List.not_mem_nil j)

theorem scanCell_complete (s : State) (q : Vec2) (r2 : ℝ) (k : ℕ) (jidx : ℕ)
    (hjl : jidx < s.spatialLookup.length)
    (hkey : keyAt s.spatialLookup jidx = k)
    (hdist : lengthSquared (s.positions (s.spatialLookup.getD jidx (0, 0)).1 - q) ≤ r2) :
    ∀ fuel i, s.spatialLookup.length - i ≤ fuel → i ≤ jidx →
      (∀ m, i ≤ m → m ≤ jidx → keyAt s.spatialLookup m = k) →
      (s.spatialLookup.getD jidx (0, 0)).1 ∈ scanCell s q r2 k i := by
  intro fuel
  induction fuel with
  | zero =>
    intro i hle hij _hrun
    omega
  | succ fuel ih =>
    intro i hle hij hrun
    have hi : i < s.spatialLookup.length := lt_of_le_of_lt hij hjl
    rw [scanCell, dif_pos hi]
    have hk : ¬(s.spatialLookup.getD i (0, 0)).2 ≠ k := not_not_intro (hrun i le_rfl hij)
    rw [if_neg hk, List.mem_append]
    by_cases heq : i = jidx
    · subst heq
      left
      rw [if_pos hdist, List.mem_singleton]
    · right
      exact ih (i + 1) (by omega) (by omega) fun m hm hm2 => hrun m (by omega) hm2

theorem get_neighbours_sound (s : State) (q : Vec2) (j : ℕ)
    (h : j ∈ get_neighbours_by_pos s q) :
    (∃ e ∈ s.spatialLookup, e.1 = j) ∧
      lengthSquared (s.positions j - q) ≤ SMOOTHING_RADIUS * SMOOTHING_RADIUS := by
  unfold get_neighbours_by_pos at h
  rw [List.mem_flatten] at h
  obtain ⟨l, hl, hjl⟩ := h
  rw [List.mem_map] at hl
  obtain ⟨off, _hoff, rfl⟩ := hl
  exact scanCell_subset s q _ _ s.spatialLookup.length _ j (by omega) hjl

/-- After a rebuild, the indices returned by the grid query are exactly the
particles whose current position lies within the smoothing radius of the
query position. -/
theorem neighbours_mem_iff (s : State) (q : Vec2) (j : ℕ) (hn : 0 < s.n)
    (h64 : s.n < 2 ^ 64) :
    j ∈ get_neighbours_by_pos (update_spatial_lookup s) q ↔
      j < s.n ∧
        lengthSquared (s.positions j - q) ≤ SMOOTHING_RADIUS * SMOOTHING_RADIUS := by
  constructor
  · intro h
    obtain ⟨⟨e, hel, hej⟩, hdist⟩ := get_neighbours_sound _ q j h
    rw [usl_positions] at hdist
    obtain ⟨i, hi, he⟩ := (usl_mem_iff s e).mp hel
    subst he
    dsimp only at hej
    subst hej
    exact ⟨hi, hdist⟩
  · rintro ⟨hjn, hdist⟩
    have hLlen : (update_spatial_lookup s).spatialLookup.length = s.n := usl_length s
    -- the particle's entry in the sorted lookup
    have hmem : ((j, create_cell_hash (world_pos_to_cell_pos (s.positions j)
        SMOOTHING_RADIUS) % s.n) : ℕ × ℕ) ∈ (update_spatial_lookup s).spatialLookup :=
      (usl_mem_iff s _).mpr ⟨j, hjn, rfl⟩
    obtain ⟨idx, hidx⟩ := List.mem_iff_get.mp hmem
    have hidxl : (idx : ℕ) < (update_spatial_lookup s).spatialLookup.length := idx.isLt
    have hkeyidx : keyAt (update_spatial_lookup s).spatialLookup idx =
        create_cell_hash (world_pos_to_cell_pos (s.positions j) SMOOTHING_RADIUS) % s.n := by
      rw [keyAt_eq_get _ _ hidxl]
      simp only [Fin.eta, hidx]
    have hgetidx : ((update_spatial_lookup s).spatialLookup.getD idx (0, 0)).1 = j := by
      rw [List.getD_eq_get? , List.get?_eq_get hidxl, Option.getD_some]
      simp only [Fin.eta, hidx]
    -- the first index of that key's run
    have hex : ∃ m, m < (update_spatial_lookup s).spatialLookup.length ∧
        keyAt (update_spatial_lookup s).spatialLookup m =
          create_cell_hash (world_pos_to_cell_pos (s.positions j) SMOOTHING_RADIUS) % s.n :=
      ⟨idx, hidxl, hkeyidx⟩
    have hi0spec := Nat.find_spec hex
    have hi0le : Nat.find hex ≤ (idx : ℕ) := Nat.find_min' hex ⟨hidxl, hkeyidx⟩
    have hi0first : ∀ m, m < Nat.find hex →
        keyAt (update_spatial_lookup s).spatialLookup m ≠
          keyAt (update_spatial_lookup s).spatialLookup (Nat.find hex) := by
      intro m hm hkm
      exact Nat.find_min hex hm ⟨lt_of_lt_of_le hm (le_trans hi0le (le_of_lt hidxl)),
        hkm.trans hi0spec.2⟩
    have hstart : (update_spatial_lookup s).startIndices
        (create_cell_hash (world_pos_to_cell_pos (s.positions j) SMOOTHING_RADIUS) % s.n) =
        Nat.find hex := by
      have := usl_start_first s h64 (Nat.find hex)
        (lt_of_le_of_lt hi0le hidxl) hi0first
      rw [hi0spec.2] at this
      exact this
    -- the run between the first index and the particle's entry
    have hrun : ∀ m, Nat.find hex ≤ m → m ≤ (idx : ℕ) →
        keyAt (update_spatial_lookup s).spatialLookup m =
          create_cell_hash (world_pos_to_cell_pos (s.positions j) SMOOTHING_RADIUS) % s.n := by
      intro m hm1 hm2
      have := sorted_keyAt_between (usl_sorted s) hm1 hm2 hidxl
        (hi0spec.2.trans hkeyidx.symm)
      rw [this, hi0spec.2]
    -- distance check holds at the entry
    have hdist' : lengthSquared ((update_spatial_lookup s).positions
        ((update_spatial_lookup s).spatialLookup.getD idx (0, 0)).1 - q) ≤
        SMOOTHING_RADIUS * SMOOTHING_RADIUS := by
      rw [usl_positions, hgetidx]
      exact hdist
    have hscan := scanCell_complete (update_spatial_lookup s) q
      (SMOOTHING_RADIUS * SMOOTHING_RADIUS)
      (create_cell_hash (world_pos_to_cell_pos (s.positions j) SMOOTHING_RADIUS) % s.n)
      idx hidxl hkeyidx hdist' (update_spatial_lookup s).spatialLookup.length (Nat.find hex)
      (by omega) hi0le hrun
    rw [hgetidx] at hscan
    -- the offset of the particle's cell in the scanned 3×3 block
    have hr0 : (0 : ℝ) ≤ SMOOTHING_RADIUS := le_of_lt smoothing_radius_pos
    have hx : |(s.positions j).1 - q.1| ≤ SMOOTHING_RADIUS := by
      apply component_bound _ ((s.positions j).2 - q.2)
      · exact hr0
      · unfold lengthSquared at hdist
        rw [Prod.fst_sub, Prod.snd_sub] at hdist
        exact hdist
    have hy : |(s.positions j).2 - q.2| ≤ SMOOTHING_RADIUS := by
      apply component_bound _ ((s.positions j).1 - q.1)
      · exact hr0
      · unfold lengthSquared at hdist
        rw [Prod.fst_sub, Prod.snd_sub] at hdist
        linarith
    have hfx := floor_div_near (s.positions j).1 q.1 SMOOTHING_RADIUS smoothing_radius_pos hx
    have hfy := floor_div_near (s.positions j).2 q.2 SMOOTHING_RADIUS smoothing_radius_pos hy
    -- assemble membership in the flattened offset scan
    unfold get_neighbours_by_pos
    rw [List.mem_flatten]
    refine ⟨scanCell (update_spatial_lookup s) q (SMOOTHING_RADIUS * SMOOTHING_RADIUS)
      (create_cell_hash (world_pos_to_cell_pos (s.positions j) SMOOTHING_RADIUS) % s.n)
      ((update_spatial_lookup s).startIndices
        (create_cell_hash (world_pos_to_cell_pos (s.positions j) SMOOTHING_RADIUS) % s.n)),
      ?_, ?_⟩
    · rw [List.mem_map]
      refine ⟨((world_pos_to_cell_pos (s.positions j) SMOOTHING_RADIUS).1 -
          (world_pos_to_cell_pos q SMOOTHING_RADIUS).1,
        (world_pos_to_cell_pos (s.positions j) SMOOTHING_RADIUS).2 -
          (world_pos_to_cell_pos q SMOOTHING_RADIUS).2), ?_, ?_⟩
      · apply mem_OFFSETS
        · show -1 ≤ ⌊(s.positions j).1 / SMOOTHING_RADIUS⌋ - ⌊q.1 / SMOOTHING_RADIUS⌋
          omega
        · show ⌊(s.positions j).1 / SMOOTHING_RADIUS⌋ - ⌊q.1 / SMOOTHING_RADIUS⌋ ≤ 1
          omega
        · show -1 ≤ ⌊(s.positions j).2 / SMOOTHING_RADIUS⌋ - ⌊q.2 / SMOOTHING_RADIUS⌋
          omega
        · show ⌊(s.positions j).2 / SMOOTHING_RADIUS⌋ - ⌊q.2 / SMOOTHING_RADIUS⌋ ≤ 1
          omega
      · dsimp only
        have hcell : ((world_pos_to_cell_pos q SMOOTHING_RADIUS).1 +
            ((world_pos_to_cell_pos (s.positions j) SMOOTHING_RADIUS).1 -
              (world_pos_to_cell_pos q SMOOTHING_RADIUS).1),
            (world_pos_to_cell_pos q SMOOTHING_RADIUS).2 +
            ((world_pos_to_cell_pos (s.positions j) SMOOTHING_RADIUS).2 -
              (world_pos_to_cell_pos q SMOOTHING_RADIUS).2)) =
            world_pos_to_cell_pos (s.positions j) SMOOTHING_RADIUS := by
          rw [Prod.ext_iff]
          constructor <;> dsimp only <;> ring
        rw [hcell, hLlen]
    · rw [hstart]
      exact hscan

/-- When every entry matches the key and passes the distance check, the scan
from index i returns every particle index from i on. -/
theorem scanCell_all (s : State) (q : Vec2) (r2 : ℝ) (k : ℕ)
    (hkeys : ∀ m, m < s.spatialLookup.length → keyAt s.spatialLookup m = k)
    (hdist : ∀ m, m < s.spatialLookup.length →
      lengthSquared (s.positions (s.spatialLookup.getD m (0, 0)).1 - q) ≤ r2) :
    ∀ fuel i, s.spatialLookup.length - i ≤ fuel →
      scanCell s q r2 k i = (s.spatialLookup.drop i).map Prod.fst := by
  intro fuel
  induction fuel with
  | zero =>
    intro i hle
    rw [scanCell, dif_neg (by omega), List.drop_eq_nil_of_le (by omega), List.map_nil]
  | succ fuel ih =>
    intro i hle
    by_cases hi : i < s.spatialLookup.length
    · rw [scanCell, dif_pos hi]
      have hk : ¬(s.spatialLookup.getD i (0, 0)).2 ≠ k := not_not_intro (hkeys i hi)
      rw [if_neg hk, if_pos (hdist i hi), ih (i + 1) (by omega)]
      rw [List.drop_eq_get_cons hi, List.map_cons, List.singleton_append]
      congr 1
      rw [List.getD_eq_get? , List.get?_eq_get hi, Option.getD_some]
    · rw [scanCell, dif_neg hi, List.drop_eq_nil_of_le (by omega), List.map_nil]

/-! Concrete evaluation: a single particle at (1, 1). All nine scanned cells
hash to the same key modulo 1, so the query returns the particle nine times. -/

theorem cell_one_one : world_pos_to_cell_pos ((1 : ℝ), (1 : ℝ)) SMOOTHING_RADIUS = (1, 1) := by
  unfold world_pos_to_cell_pos SMOOTHING_RADIUS
  norm_num [Prod.ext_iff]

theorem oneParticle_lookup : (update_spatial_lookup oneParticle).spatialLookup = [(0, 0)] := by
  rw [usl_spatialLookup]
  have h1 : oneParticle.n = 1 := rfl
  rw [h1]
  have h2 : List.range 1 = [0] := rfl
  rw [h2, List.map_cons, List.map_nil]
  have h3 : oneParticle.positions 0 = ((1 : ℝ), (1 : ℝ)) := rfl
  rw [h3, cell_one_one, Nat.mod_one]
  simp [List.insertionSort, List.orderedInsert]

theorem oneParticle_len : (update_spatial_lookup oneParticle).spatialLookup.length = 1 := by
  rw [oneParticle_lookup]
  rfl

theorem oneParticle_start0 : (update_spatial_lookup oneParticle).startIndices 0 = 0 := by
  have hk : keyAt (update_spatial_lookup oneParticle).spatialLookup 0 = 0 := by
    rw [oneParticle_lookup]
    rfl
  have h := usl_start_first oneParticle (by norm_num [oneParticle]) 0
    (by rw [oneParticle_len]; norm_num) (fun j hj => absurd hj (Nat.not_lt_zero j))
  rw [hk] at h
  exact h

theorem oneParticle_scan :
    scanCell (update_spatial_lookup oneParticle) ((1 : ℝ), (1 : ℝ))
      (SMOOTHING_RADIUS * SMOOTHING_RADIUS) 0 0 = [0] := by
  have h := scanCell_all (update_spatial_lookup oneParticle) ((1 : ℝ), (1 : ℝ))
    (SMOOTHING_RADIUS * SMOOTHING_RADIUS) 0
    (by
      intro m hm
      rw [oneParticle_len] at hm
      interval_cases m
      rw [oneParticle_lookup]
      rfl)
    (by
      intro m hm
      rw [oneParticle_len] at hm
      interval_cases m
      rw [oneParticle_lookup, usl_positions]
      show lengthSquared (oneParticle.positions 0 - ((1 : ℝ), (1 : ℝ))) ≤ _
      have h3 : oneParticle.positions 0 = ((1 : ℝ), (1 : ℝ)) := rfl
      rw [h3]
      norm_num [lengthSquared, Prod.fst_sub, Prod.snd_sub, SMOOTHING_RADIUS])
    (update_spatial_lookup oneParticle).spatialLookup.length 0 (by omega)
  rw [h, oneParticle_lookup]
  rfl

theorem oneParticle_neighbours :
    get_neighbours_by_pos (update_spatial_lookup oneParticle) ((1 : ℝ), (1 : ℝ)) =
      List.replicate 9 0 := by
  simp only [get_neighbours_by_pos]
  simp only [oneParticle_len, Nat.mod_one, oneParticle_start0, oneParticle_scan]
  decide

/-- C3 amended: for every particle configuration and query position (with
0 < n particles, n < 2^64), an index is in the collection returned by the
grid query iff its current position lies within the smoothing radius of the
query position — the query equals the brute-force distance-filtered set as a
set. The "each appearing once" part of the claim is false in general: offset
cells that alias to the same hash key are scanned repeatedly. -/
theorem claim_C3_grid_query (s : State) (q : Vec2) (j : ℕ) (hn : 0 < s.n)
    (h64 : s.n < 2 ^ 64) :
    j ∈ get_neighbours_by_pos (update_spatial_lookup s) q ↔
      j < s.n ∧ lengthSquared (s.positions j - q) ≤ SMOOTHING_RADIUS * SMOOTHING_RADIUS :=
  neighbours_mem_iff s q j hn h64

/-- C3 witness at a concrete state. -/
theorem claim_C3_grid_query_witness :
    0 < oneParticle.n ∧ oneParticle.n < 2 ^ 64 ∧
      (0 ∈ get_neighbours_by_pos (update_spatial_lookup oneParticle) ((1 : ℝ), (1 : ℝ)) ↔
        0 < oneParticle.n ∧ lengthSquared (oneParticle.positions 0 - ((1 : ℝ), (1 : ℝ))) ≤
          SMOOTHING_RADIUS * SMOOTHING_RADIUS) :=
  ⟨Nat.zero_lt_one, by norm_num [oneParticle],
    claim_C3_grid_query oneParticle ((1 : ℝ), (1 : ℝ)) 0 Nat.zero_lt_one
      (by norm_num [oneParticle])⟩

/-- C3 counterexample: with one particle at (1, 1) all nine scanned cells
alias to key 0 mod 1, so the query returns the particle nine times — the
collection is not "each appearing once". -/
theorem claim_C3_counterexample :
    (get_neighbours_by_pos (update_spatial_lookup oneParticle) ((1 : ℝ), (1 : ℝ))).count 0 = 9 ∧
      (9 : ℕ) ≠ 1 := by
  rw [oneParticle_neighbours]
  exact ⟨by decide, by decide⟩

/-! Densities. -/

theorem smoothing_kernel_nonneg (dist radius : ℝ) (hr : 0 < radius) :
    0 ≤ smoothing_kernel dist radius := by
  unfold smoothing_kernel
  split_ifs with h
  · exact le_refl 0
  · apply div_nonneg (mul_self_nonneg _)
    have hpi := Real.pi_pos
    positivity

theorem smoothing_kernel_zero_pos : 0 < smoothing_kernel 0 SMOOTHING_RADIUS := by
  unfold smoothing_kernel SMOOTHING_RADIUS
  rw [if_neg (by norm_num)]
  have hpi := Real.pi_pos
  positivity

theorem vlength_zero : vlength (0 : Vec2) = 0 := by
  unfold vlength lengthSquared
  simp

theorem vlength_self_zero (v : Vec2) : vlength (v - v) = 0 := by
  rw [sub_self]
  unfold vlength lengthSquared
  simp

theorem densities_after_pass (s : State) (i : ℕ) (hi : i < s.n) :
    (calculateDensities (update_spatial_lookup s)).densities i =
      ((get_neighbours_by_idx (update_spatial_lookup s) i).map fun otherIdx =>
        smoothing_kernel (vlength (s.positions otherIdx - s.positions i))
          SMOOTHING_RADIUS).sum := by
  rw [dens_densities _ i (by simpa using hi)]
  unfold calculate_density
  simp only [usl_positions]

theorem self_mem_neighbours (s : State) (i : ℕ) (hn : 0 < s.n) (h64 : s.n < 2 ^ 64)
    (hi : i < s.n) : i ∈ get_neighbours_by_idx (update_spatial_lookup s) i := by
  unfold get_neighbours_by_idx
  rw [usl_positions]
  refine (neighbours_mem_iff s (s.positions i) i hn h64).mpr ⟨hi, ?_⟩
  rw [sub_self]
  have hz : lengthSquared 0 = 0 := by simp [lengthSquared]
  rw [hz]
  exact mul_self_nonneg _

theorem density_ge_W0 (s : State) (i : ℕ) (hn : 0 < s.n) (h64 : s.n < 2 ^ 64) (hi : i < s.n) :
    smoothing_kernel 0 SMOOTHING_RADIUS ≤
      (calculateDensities (update_spatial_lookup s)).densities i := by
  rw [densities_after_pass s i hi]
  have hmem := List.mem_map_of_mem
    (fun otherIdx => smoothing_kernel (vlength (s.positions otherIdx - s.positions i))
      SMOOTHING_RADIUS)
    (self_mem_neighbours s i hn h64 hi)
  have hterm : smoothing_kernel (vlength (s.positions i - s.positions i)) SMOOTHING_RADIUS =
      smoothing_kernel 0 SMOOTHING_RADIUS := by
    rw [vlength_self_zero]
  rw [← hterm]
  refine List.single_le_sum (fun x hx => ?_) _ hmem
  obtain ⟨j, _, rfl⟩ := List.mem_map.mp hx
  exact smoothing_kernel_nonneg _ _ smoothing_radius_pos

/-- C8 amended: after the density pass, every density is non-negative and at
least W(0, h) > 0; when a particle has no other particle within the
smoothing radius its density is (number of times its own query returns it) ·
W(0, h) — at least one occurrence, but possibly several when scanned cells
alias to the same key, so equality with W(0, h) can fail. -/
theorem claim_C8_density_bounds (s : State) (i : ℕ) (hn : 0 < s.n) (h64 : s.n < 2 ^ 64)
    (hi : i < s.n) :
    0 ≤ (calculateDensities (update_spatial_lookup s)).densities i ∧
    smoothing_kernel 0 SMOOTHING_RADIUS ≤
      (calculateDensities (update_spatial_lookup s)).densities i ∧
    ((∀ j, j < s.n → j ≠ i → ¬lengthSquared (s.positions j - s.positions i) ≤
        SMOOTHING_RADIUS * SMOOTHING_RADIUS) →
      (calculateDensities (update_spatial_lookup s)).densities i =
        ((get_neighbours_by_idx (update_spatial_lookup s) i).length : ℝ) *
          smoothing_kernel 0 SMOOTHING_RADIUS ∧
      1 ≤ (get_neighbours_by_idx (update_spatial_lookup s) i).length) := by
  have hge := density_ge_W0 s i hn h64 hi
  refine ⟨le_trans (le_of_lt smoothing_kernel_zero_pos) hge, hge, ?_⟩
  intro hiso
  have hall : ∀ e ∈ get_neighbours_by_idx (update_spatial_lookup s) i, e = i := by
    intro e he
    unfold get_neighbours_by_idx at he
    rw [usl_positions] at he
    obtain ⟨hen, hed⟩ := (neighbours_mem_iff s _ e hn h64).mp he
    by_contra hne
    exact hiso e hen hne hed
  constructor
  · rw [densities_after_pass s i hi]
    have hmapall : ∀ x ∈ (get_neighbours_by_idx (update_spatial_lookup s) i).map
        (fun otherIdx => smoothing_kernel (vlength (s.positions otherIdx - s.positions i))
          SMOOTHING_RADIUS), x = smoothing_kernel 0 SMOOTHING_RADIUS := by
      intro x hx
      obtain ⟨j, hj, rfl⟩ := List.mem_map.mp hx
      rw [hall j hj, vlength_self_zero]
    rw [List.eq_replicate_of_mem hmapall, List.sum_replicate, List.length_map, nsmul_eq_mul]
  · exact List.length_pos.mpr (List.ne_nil_of_mem (self_mem_neighbours s i hn h64 hi))

/-- C8 witness at a concrete state. -/
theorem claim_C8_density_bounds_witness :
    0 < oneParticle.n ∧ oneParticle.n < 2 ^ 64 ∧
      smoothing_kernel 0 SMOOTHING_RADIUS ≤
        (calculateDensities (update_spatial_lookup oneParticle)).densities 0 :=
  ⟨Nat.zero_lt_one, by norm_num [oneParticle],
    (claim_C8_density_bounds oneParticle 0 Nat.zero_lt_one (by norm_num [oneParticle])
      Nat.zero_lt_one).2.1⟩

/-- C8 counterexample: an isolated particle (no other particle at all) has
density 9·W(0, h) ≠ W(0, h): the nine aliasing offset scans each re-count the
self-contribution. -/
theorem claim_C8_counterexample :
    (calculateDensities (update_spatial_lookup oneParticle)).densities 0 ≠
      smoothing_kernel 0 SMOOTHING_RADIUS := by
  have h1 : (calculateDensities (update_spatial_lookup oneParticle)).densities 0 =
      9 * smoothing_kernel 0 SMOOTHING_RADIUS := by
    rw [densities_after_pass oneParticle 0 Nat.zero_lt_one]
    unfold get_neighbours_by_idx
    rw [usl_positions]
    have h3 : oneParticle.positions 0 = ((1 : ℝ), (1 : ℝ)) := rfl
    rw [h3, oneParticle_neighbours, List.map_replicate]
    have hf : smoothing_kernel (vlength (oneParticle.positions 0 - ((1 : ℝ), (1 : ℝ))))
        SMOOTHING_RADIUS = smoothing_kernel 0 SMOOTHING_RADIUS := by
      rw [h3, vlength_self_zero]
    rw [hf, List.sum_replicate, nsmul_eq_mul]
    norm_num
  rw [h1]
  have hW := smoothing_kernel_zero_pos
  intro h
  linarith

/-- C10: after the density pass every particle's density is strictly
positive (the particle itself is always returned by its own query and
contributes W(0, h) > 0), so the divisions by density[j] in the pressure
accumulation and by density[i] when forming the acceleration are never by
zero. -/
theorem claim_C10_density_positive (s : State) (i : ℕ) (hn : 0 < s.n) (h64 : s.n < 2 ^ 64)
    (hi : i < s.n) :
    0 < (calculateDensities (update_spatial_lookup s)).densities i ∧
      (calculateDensities (update_spatial_lookup s)).densities i ≠ 0 := by
  have h := lt_of_lt_of_le smoothing_kernel_zero_pos (density_ge_W0 s i hn h64 hi)
  exact ⟨h, ne_of_gt h⟩

/-- C10 witness at a concrete state. -/
theorem claim_C10_density_positive_witness :
    0 < oneParticle.n ∧ oneParticle.n < 2 ^ 64 ∧
      (calculateDensities (update_spatial_lookup oneParticle)).densities 0 ≠ 0 :=
  ⟨Nat.zero_lt_one, by norm_num [oneParticle],
    (claim_C10_density_positive oneParticle 0 Nat.zero_lt_one (by norm_num [oneParticle])
      Nat.zero_lt_one).2⟩

/-! C2: the density pass uses current positions, not predicted ones. -/

theorem hash_one_one : create_cell_hash (1, 1) = 9753156 := by
  norm_num [create_cell_hash, toUsize, USIZE_MOD]

/-- C2 amended: each tick's densities are computed from the CURRENT
positions, not the predicted ones: when particle i's neighbour query has no
aliasing repeats, density[i] is exactly the brute-force sum of
W(|positions[j] − positions[i]|, h) over the particles within the smoothing
radius of positions[i] (including i itself). -/
theorem claim_C2_density_from_positions (s : State) (i : ℕ) (hn : 0 < s.n)
    (h64 : s.n < 2 ^ 64) (hi : i < s.n)
    (hnd : (get_neighbours_by_idx (update_spatial_lookup s) i).Nodup) :
    (calculateDensities (update_spatial_lookup s)).densities i =
      (((List.range s.n).filter fun j =>
          lengthSquared (s.positions j - s.positions i) ≤
            SMOOTHING_RADIUS * SMOOTHING_RADIUS).map
        fun j => smoothing_kernel (vlength (s.positions j - s.positions i))
          SMOOTHING_RADIUS).sum := by
  rw [densities_after_pass s i hi]
  have hnd2 : (((List.range s.n).filter fun j =>
      lengthSquared (s.positions j - s.positions i) ≤
        SMOOTHING_RADIUS * SMOOTHING_RADIUS)).Nodup := (List.nodup_range s.n).filter _
  have hmem : ∀ a, a ∈ get_neighbours_by_idx (update_spatial_lookup s) i ↔
      a ∈ (List.range s.n).filter fun j =>
        lengthSquared (s.positions j - s.positions i) ≤
          SMOOTHING_RADIUS * SMOOTHING_RADIUS := by
    intro a
    rw [List.mem_filter, List.mem_range]
    unfold get_neighbours_by_idx
    rw [usl_positions]
    rw [neighbours_mem_iff s (s.positions i) a hn h64]
    simp
  have hperm := (List.perm_ext_iff_of_nodup hnd hnd2).mpr hmem
  exact (hperm.map _).sum_eq

/-! Thirteen coincident particles: modulo 13 the nine scanned cells have
pairwise distinct keys, so the query has no repeats. -/

theorem thirteen_lookup : (update_spatial_lookup thirteenCoincident).spatialLookup =
    (List.range 13).map fun i => (i, 10) := by
  rw [usl_spatialLookup]
  have h1 : thirteenCoincident.n = 13 := rfl
  rw [h1]
  have hmap : ((List.range 13).map fun i =>
      (i, create_cell_hash (world_pos_to_cell_pos (thirteenCoincident.positions i)
        SMOOTHING_RADIUS) % 13)) = (List.range 13).map fun i => (i, 10) := by
    apply List.map_congr_left
    intro a _
    have hp : thirteenCoincident.positions a = ((1 : ℝ), (1 : ℝ)) := rfl
    rw [hp, cell_one_one, hash_one_one]
  rw [hmap]
  apply List.Sorted.insertionSort_eq
  decide

theorem thirteen_keyAt : ∀ i, i < 13 →
    keyAt ((List.range 13).map fun i => (i, 10)) i = 10 := by
  decide

theorem thirteen_start10 : (update_spatial_lookup thirteenCoincident).startIndices 10 = 0 := by
  have hk : keyAt (update_spatial_lookup thirteenCoincident).spatialLookup 0 = 10 := by
    rw [thirteen_lookup]
    decide
  have h := usl_start_first thirteenCoincident (by norm_num [thirteenCoincident]) 0
    (by rw [usl_length]; norm_num [thirteenCoincident])
    (fun j hj => absurd hj (Nat.not_lt_zero j))
  rw [hk] at h
  exact h

theorem thirteen_start_other (k : ℕ) (hk : k ≠ 10) :
    (update_spatial_lookup thirteenCoincident).startIndices k = USIZE_MAX := by
  apply usl_start_empty
  intro i hi
  rw [usl_length] at hi
  have h1 : thirteenCoincident.n = 13 := rfl
  rw [h1] at hi
  rw [thirteen_lookup, thirteen_keyAt i hi]
  omega

theorem thirteen_scan :
    scanCell (update_spatial_lookup thirteenCoincident) ((1 : ℝ), (1 : ℝ))
      (SMOOTHING_RADIUS * SMOOTHING_RADIUS) 10 0 = List.range 13 := by
  have h := scanCell_all (update_spatial_lookup thirteenCoincident) ((1 : ℝ), (1 : ℝ))
    (SMOOTHING_RADIUS * SMOOTHING_RADIUS) 10
    (by
      intro m hm
      rw [thirteen_lookup] at hm ⊢
      exact thirteen_keyAt m (by simpa using hm))
    (by
      intro m _hm
      rw [usl_positions]
      have hp : thirteenCoincident.positions
          ((update_spatial_lookup thirteenCoincident).spatialLookup.getD m (0, 0)).1 =
          ((1 : ℝ), (1 : ℝ)) := rfl
      rw [hp]
      norm_num [lengthSquared, Prod.fst_sub, Prod.snd_sub, SMOOTHING_RADIUS])
    (update_spatial_lookup thirteenCoincident).spatialLookup.length 0 (by omega)
  rw [h, thirteen_lookup]
  decide

theorem thirteen_scan_max (k : ℕ) :
    scanCell (update_spatial_lookup thirteenCoincident) ((1 : ℝ), (1 : ℝ))
      (SMOOTHING_RADIUS * SMOOTHING_RADIUS) k USIZE_MAX = [] := by
  have hguard : ¬USIZE_MAX < (update_spatial_lookup thirteenCoincident).spatialLookup.length := by
    rw [usl_length]
    norm_num [USIZE_MAX, thirteenCoincident]
  rw [scanCell, dif_neg hguard]

theorem hash_c00 : create_cell_hash ((1 : ℤ) + -1, (1 : ℤ) + -1) = 0 := by
  decide

theorem hash_c10 : create_cell_hash ((1 : ℤ) + 0, (1 : ℤ) + -1) = 15823 := by
  decide

theorem hash_c20 : create_cell_hash ((1 : ℤ) + 1, (1 : ℤ) + -1) = 31646 := by
  decide

theorem hash_c01 : create_cell_hash ((1 : ℤ) + -1, (1 : ℤ) + 0) = 9737333 := by
  decide

theorem hash_c11 : create_cell_hash ((1 : ℤ) + 0, (1 : ℤ) + 0) = 9753156 := by
  decide

theorem hash_c21 : create_cell_hash ((1 : ℤ) + 1, (1 : ℤ) + 0) = 9768979 := by
  decide

theorem hash_c02 : create_cell_hash ((1 : ℤ) + -1, (1 : ℤ) + 1) = 19474666 := by
  decide

theorem hash_c12 : create_cell_hash ((1 : ℤ) + 0, (1 : ℤ) + 1) = 19490489 := by
  decide

theorem hash_c22 : create_cell_hash ((1 : ℤ) + 1, (1 : ℤ) + 1) = 19506312 := by
  decide

theorem m13_a : (0 : ℕ) % 13 = 0 := by norm_num
theorem m13_b : 15823 % 13 = 2 := by norm_num
theorem m13_c : 31646 % 13 = 4 := by norm_num
theorem m13_d : 9737333 % 13 = 8 := by norm_num
theorem m13_e : 9753156 % 13 = 10 := by norm_num
theorem m13_f : 9768979 % 13 = 12 := by norm_num
theorem m13_g : 19474666 % 13 = 3 := by norm_num
theorem m13_h : 19490489 % 13 = 5 := by norm_num
theorem m13_i : 19506312 % 13 = 7 := by norm_num

theorem m2_a : (0 : ℕ) % 2 = 0 := by norm_num
theorem m2_b : 15823 % 2 = 1 := by norm_num
theorem m2_c : 31646 % 2 = 0 := by norm_num
theorem m2_d : 9737333 % 2 = 1 := by norm_num
theorem m2_e : 9753156 % 2 = 0 := by norm_num
theorem m2_f : 9768979 % 2 = 1 := by norm_num
theorem m2_g : 19474666 % 2 = 0 := by norm_num
theorem m2_h : 19490489 % 2 = 1 := by norm_num
theorem m2_i : 19506312 % 2 = 0 := by norm_num

theorem thirteen_len :
    (update_spatial_lookup thirteenCoincident).spatialLookup.length = 13 := by
  rw [usl_length]
  rfl

theorem thirteen_scan_any (k : ℕ) :
    scanCell (update_spatial_lookup thirteenCoincident) ((1 : ℝ), (1 : ℝ))
      (SMOOTHING_RADIUS * SMOOTHING_RADIUS) (k % 13)
      ((update_spatial_lookup thirteenCoincident).startIndices (k % 13)) =
      if k % 13 = 10 then List.range 13 else [] := by
  have hm : k % 13 < 13 := Nat.mod_lt _ (by norm_num)
  generalize hg : k % 13 = m at hm ⊢
  interval_cases m <;>
    first
      | (rw [thirteen_start10, thirteen_scan, if_pos rfl])
      | (rw [thirteen_start_other _ (by norm_num), thirteen_scan_max, if_neg (by norm_num)])

theorem thirteen_neighbours :
    get_neighbours_by_pos (update_spatial_lookup thirteenCoincident) ((1 : ℝ), (1 : ℝ)) =
      List.range 13 := by
  simp only [get_neighbours_by_pos, cell_one_one, thirteen_len, thirteen_scan_any]
  decide

theorem thirteen_nodup :
    (get_neighbours_by_idx (update_spatial_lookup thirteenCoincident) 0).Nodup := by
  unfold get_neighbours_by_idx
  rw [usl_positions]
  have hp : thirteenCoincident.positions 0 = ((1 : ℝ), (1 : ℝ)) := rfl
  rw [hp, thirteen_neighbours]
  exact List.nodup_range 13

/-- C2 witness at a concrete aliasing-free state. -/
theorem claim_C2_density_from_positions_witness :
    0 < thirteenCoincident.n ∧ thirteenCoincident.n < 2 ^ 64 ∧ 0 < thirteenCoincident.n ∧
      (get_neighbours_by_idx (update_spatial_lookup thirteenCoincident) 0).Nodup ∧
      (calculateDensities (update_spatial_lookup thirteenCoincident)).densities 0 =
        (((List.range thirteenCoincident.n).filter fun j =>
            lengthSquared (thirteenCoincident.positions j - thirteenCoincident.positions 0) ≤
              SMOOTHING_RADIUS * SMOOTHING_RADIUS).map
          fun j => smoothing_kernel (vlength (thirteenCoincident.positions j -
            thirteenCoincident.positions 0)) SMOOTHING_RADIUS).sum :=
  ⟨by norm_num [thirteenCoincident], by norm_num [thirteenCoincident],
    by norm_num [thirteenCoincident], thirteen_nodup,
    claim_C2_density_from_positions thirteenCoincident 0 (by norm_num [thirteenCoincident])
      (by norm_num [thirteenCoincident]) (by norm_num [thirteenCoincident]) thirteen_nodup⟩

/-! Two coincident particles whose predicted positions differ. -/

theorem twoCoincident_lookup :
    (update_spatial_lookup twoCoincident).spatialLookup = [(0, 0), (1, 0)] := by
  rw [usl_spatialLookup]
  have h1 : twoCoincident.n = 2 := rfl
  rw [h1]
  have h2 : List.range 2 = [0, 1] := rfl
  rw [h2, List.map_cons, List.map_cons, List.map_nil]
  have h3 : twoCoincident.positions 0 = ((1 : ℝ), (1 : ℝ)) := rfl
  have h4 : twoCoincident.positions 1 = ((1 : ℝ), (1 : ℝ)) := rfl
  rw [h3, h4, cell_one_one, hash_one_one]
  norm_num [List.insertionSort, List.orderedInsert, leKey]

theorem twoMidTick_lookup : twoMidTick.spatialLookup = [(0, 0), (1, 0)] := by
  show (predictPositions (update_spatial_lookup twoCoincident)).spatialLookup = _
  rw [predict_spatialLookup]
  exact twoCoincident_lookup

theorem twoMidTick_len : twoMidTick.spatialLookup.length = 2 := by
  rw [twoMidTick_lookup]
  rfl

theorem twoMidTick_positions : twoMidTick.positions = twoCoincident.positions := by
  show (predictPositions (update_spatial_lookup twoCoincident)).positions = _
  rw [predict_positions, usl_positions]

theorem two_start0 : (update_spatial_lookup twoCoincident).startIndices 0 = 0 := by
  have hk : keyAt (update_spatial_lookup twoCoincident).spatialLookup 0 = 0 := by
    rw [twoCoincident_lookup]
    rfl
  have h := usl_start_first twoCoincident (by norm_num [twoCoincident]) 0
    (by rw [usl_length]; norm_num [twoCoincident]) (fun j hj => absurd hj (Nat.not_lt_zero j))
  rw [hk] at h
  exact h

theorem two_start1 : (update_spatial_lookup twoCoincident).startIndices 1 = USIZE_MAX := by
  apply usl_start_empty
  intro i hi
  rw [usl_length] at hi
  have h1 : twoCoincident.n = 2 := rfl
  rw [h1] at hi
  interval_cases i <;> rw [twoCoincident_lookup] <;> decide

theorem twoMidTick_start : twoMidTick.startIndices =
    (update_spatial_lookup twoCoincident).startIndices := by
  show (predictPositions (update_spatial_lookup twoCoincident)).startIndices = _
  rw [predict_startIndices]

theorem twoMidTick_scan :
    scanCell twoMidTick ((1 : ℝ), (1 : ℝ)) (SMOOTHING_RADIUS * SMOOTHING_RADIUS) 0 0 =
      [0, 1] := by
  have h := scanCell_all twoMidTick ((1 : ℝ), (1 : ℝ)) (SMOOTHING_RADIUS * SMOOTHING_RADIUS) 0
    (by
      intro m hm
      rw [twoMidTick_len] at hm
      interval_cases m <;> rw [twoMidTick_lookup] <;> decide)
    (by
      intro m _hm
      rw [twoMidTick_positions]
      have hp : twoCoincident.positions (twoMidTick.spatialLookup.getD m (0, 0)).1 =
          ((1 : ℝ), (1 : ℝ)) := rfl
      rw [hp]
      norm_num [lengthSquared, Prod.fst_sub, Prod.snd_sub, SMOOTHING_RADIUS])
    twoMidTick.spatialLookup.length 0 (by omega)
  rw [h, twoMidTick_lookup]
  rfl

theorem twoMidTick_scan_max (k : ℕ) :
    scanCell twoMidTick ((1 : ℝ), (1 : ℝ)) (SMOOTHING_RADIUS * SMOOTHING_RADIUS) k
      USIZE_MAX = [] := by
  have hguard : ¬USIZE_MAX < twoMidTick.spatialLookup.length := by
    rw [twoMidTick_len]
    norm_num [USIZE_MAX]
  rw [scanCell, dif_neg hguard]

theorem two_scan_any (k : ℕ) :
    scanCell twoMidTick ((1 : ℝ), (1 : ℝ)) (SMOOTHING_RADIUS * SMOOTHING_RADIUS) (k % 2)
      (twoMidTick.startIndices (k % 2)) = if k % 2 = 0 then [0, 1] else [] := by
  rcases (by omega : k % 2 = 0 ∨ k % 2 = 1) with h | h <;> rw [h]
  · rw [twoMidTick_start, two_start0, twoMidTick_scan, if_pos rfl]
  · rw [twoMidTick_start, two_start1, twoMidTick_scan_max, if_neg (by norm_num)]

theorem twoMidTick_neighbours :
    get_neighbours_by_pos twoMidTick ((1 : ℝ), (1 : ℝ)) = [0, 1, 0, 1, 0, 1, 0, 1, 0, 1] := by
  simp only [get_neighbours_by_pos, cell_one_one, twoMidTick_len, two_scan_any]
  decide

theorem twoMidTick_pred0 : twoMidTick.predictedPositions 0 = ((1 : ℝ), (1 : ℝ)) := by
  show (predictPositions (update_spatial_lookup twoCoincident)).predictedPositions 0 = _
  rw [predict_predicted _ 0 (by rw [usl_n]; norm_num [twoCoincident])]
  rw [usl_positions, usl_velocities]
  have h3 : twoCoincident.positions 0 = ((1 : ℝ), (1 : ℝ)) := rfl
  have h5 : twoCoincident.velocities 0 = ((0 : ℝ), (0 : ℝ)) := rfl
  rw [h3, h5]
  have hz : ((TICK_DELTA : ℚ) : ℝ) • (((0 : ℝ), (0 : ℝ)) : Vec2) = (0 : Vec2) := by
    rw [show (((0 : ℝ), (0 : ℝ)) : Vec2) = (0 : Vec2) from rfl, smul_zero]
  rw [hz, add_zero]

theorem twoMidTick_pred1 : twoMidTick.predictedPositions 1 = ((3 : ℝ), (1 : ℝ)) := by
  show (predictPositions (update_spatial_lookup twoCoincident)).predictedPositions 1 = _
  rw [predict_predicted _ 1 (by rw [usl_n]; norm_num [twoCoincident])]
  rw [usl_positions, usl_velocities]
  have h3 : twoCoincident.positions 1 = ((1 : ℝ), (1 : ℝ)) := rfl
  have h5 : twoCoincident.velocities 1 = ((60 : ℝ), (0 : ℝ)) := rfl
  rw [h3, h5, tickDelta_real]
  norm_num [Prod.ext_iff, Prod.smul_mk, Prod.mk_add_mk, smul_eq_mul]

/-- C2 counterexample: with two coincident particles whose predicted
positions are (1,1) and (3,1), the density pass (which reads current
positions) gives 10·W(0,h), while the spec's predicted-position formula gives
W(0,h). -/
theorem claim_C2_counterexample :
    (calculateDensities twoMidTick).densities 0 ≠ density_from_predicted_spec twoMidTick 0 := by
  have hn2 : twoMidTick.n = 2 := rfl
  have hL : (calculateDensities twoMidTick).densities 0 =
      10 * smoothing_kernel 0 SMOOTHING_RADIUS := by
    rw [dens_densities twoMidTick 0 (by rw [hn2]; norm_num)]
    unfold calculate_density get_neighbours_by_idx
    have hp0 : twoMidTick.positions 0 = ((1 : ℝ), (1 : ℝ)) := by
      rw [twoMidTick_positions]
      rfl
    rw [hp0, twoMidTick_neighbours]
    have hterm : ∀ e : ℕ, smoothing_kernel (vlength (twoMidTick.positions e -
        ((1 : ℝ), (1 : ℝ)))) SMOOTHING_RADIUS = smoothing_kernel 0 SMOOTHING_RADIUS := by
      intro e
      have hpe : twoMidTick.positions e = ((1 : ℝ), (1 : ℝ)) := by
        rw [twoMidTick_positions]
        rfl
      rw [hpe, vlength_self_zero]
    simp only [List.map_cons, List.map_nil, hterm, List.sum_cons, List.sum_nil]
    ring
  have hW := smoothing_kernel_zero_pos
  have hR : density_from_predicted_spec twoMidTick 0 = smoothing_kernel 0 SMOOTHING_RADIUS := by
    unfold density_from_predicted_spec
    rw [hn2]
    have h2 : List.range 2 = [0, 1] := rfl
    have hb0 : decide (lengthSquared (twoMidTick.predictedPositions 0 -
        twoMidTick.predictedPositions 0) ≤ SMOOTHING_RADIUS * SMOOTHING_RADIUS) = true :=
      decide_eq_true (by
        rw [sub_self]
        have hz : lengthSquared 0 = 0 := by simp [lengthSquared]
        rw [hz]
        exact mul_self_nonneg _)
    have hb1 : decide (lengthSquared (twoMidTick.predictedPositions 1 -
        twoMidTick.predictedPositions 0) ≤ SMOOTHING_RADIUS * SMOOTHING_RADIUS) = false := by
      rw [decide_eq_false_iff_not, twoMidTick_pred0, twoMidTick_pred1]
      norm_num [lengthSquared, Prod.fst_sub, Prod.snd_sub, SMOOTHING_RADIUS]
    rw [h2]
    simp only [List.filter_cons, List.filter_nil, hb0, hb1]
    rw [if_pos trivial]
    rw [if_neg (by decide : ¬(false = true))]
    simp only [List.map_cons, List.map_nil, List.sum_cons, List.sum_nil]
    rw [sub_self, vlength_zero, add_zero]
  rw [hL, hR]
  intro h
  linarith

/-! Unit length of normalised non-zero vectors, and the rng fallback of the
pressure direction (claim C7). -/

theorem vdivs_zero (c : ℝ) : vdivs (0 : Vec2) c = 0 := by
  unfold vdivs
  simp

theorem lengthSquared_nonneg (v : Vec2) : 0 ≤ lengthSquared v :=
  add_nonneg (mul_self_nonneg _) (mul_self_nonneg _)

theorem lengthSquared_pos {v : Vec2} (h : v ≠ 0) : 0 < lengthSquared v := by
  rcases lt_or_eq_of_le (lengthSquared_nonneg v) with hlt | heq
  · exact hlt
  · exfalso
    apply h
    unfold lengthSquared at heq
    have h1 : v.1 = 0 := by nlinarith [mul_self_nonneg v.1, mul_self_nonneg v.2]
    have h2 : v.2 = 0 := by nlinarith [mul_self_nonneg v.1, mul_self_nonneg v.2]
    exact Prod.ext h1 h2

theorem vlength_vnormalize {v : Vec2} (h : v ≠ 0) : vlength (vnormalize v) = 1 := by
  have hL : 0 < lengthSquared v := lengthSquared_pos h
  have hl : 0 < vlength v := Real.sqrt_pos.mpr hL
  have hsq : vlength v * vlength v = lengthSquared v := Real.mul_self_sqrt (le_of_lt hL)
  have h1 : lengthSquared (vnormalize v) = 1 := by
    show lengthSquared (vdivs v (vlength v)) = 1
    unfold vdivs lengthSquared
    dsimp only
    rw [div_mul_div_comm, div_mul_div_comm, div_add_div_same, hsq]
    exact div_self (ne_of_gt hL)
  unfold vlength
  rw [h1, Real.sqrt_one]

/-- C7 counterexample: with coincident predicted positions and an rng draw of
the zero vector, the fallback direction is the zero vector (NaN in f32), not a
unit vector, for the ideal normalize 0 = 0. -/
theorem claim_C7_counterexample :
    pressure_dir zeroDrawState 0 0 1 = (0, 0) ∧
      vlength (pressure_dir zeroDrawState 0 0 1) ≠ 1 := by
  have hd : pressure_dir zeroDrawState 0 0 1 = (0, 0) := by
    unfold pressure_dir
    dsimp only
    have hp : zeroDrawState.predictedPositions 1 - zeroDrawState.predictedPositions 0 = 0 := by
      show (((1 : ℝ), (1 : ℝ)) : Vec2) - ((1 : ℝ), (1 : ℝ)) = 0
      rw [sub_self]
    rw [hp, vlength_zero, if_pos rfl]
    have hr : zeroDrawState.rng 0 = (((0 : ℝ), (0 : ℝ)) : Vec2) := rfl
    rw [hr, show (((0 : ℝ), (0 : ℝ)) : Vec2) = (0 : Vec2) from rfl]
    unfold vnormalize
    rw [vdivs_zero]
  refine ⟨hd, ?_⟩
  rw [hd, show (((0 : ℝ), (0 : ℝ)) : Vec2) = (0 : Vec2) from rfl, vlength_zero]
  norm_num

/-- C7 (amended): when two predicted positions coincide exactly, the pressure
direction is the normalised rng draw; whenever that draw is non-zero this is a
unit-length, non-zero direction. -/
theorem claim_C7_random_fallback (s : State) (r idx j : ℕ)
    (hc : s.predictedPositions j = s.predictedPositions idx) (hr : s.rng r ≠ 0) :
    pressure_dir s r idx j = vnormalize (s.rng r) ∧
      vlength (pressure_dir s r idx j) = 1 ∧ pressure_dir s r idx j ≠ 0 := by
  have hd : pressure_dir s r idx j = vnormalize (s.rng r) := by
    unfold pressure_dir
    dsimp only
    rw [hc, sub_self, vlength_zero, if_pos rfl]
  have hu : vlength (vnormalize (s.rng r)) = 1 := vlength_vnormalize hr
  refine ⟨hd, by rw [hd]; exact hu, ?_⟩
  rw [hd]
  intro h0
  rw [h0, vlength_zero] at hu
  norm_num at hu

theorem claim_C7_random_fallback_witness :
    nonzeroDrawState.predictedPositions 1 = nonzeroDrawState.predictedPositions 0 ∧
      nonzeroDrawState.rng 0 ≠ 0 ∧
      (pressure_dir nonzeroDrawState 0 0 1 = vnormalize (nonzeroDrawState.rng 0) ∧
        vlength (pressure_dir nonzeroDrawState 0 0 1) = 1 ∧
        pressure_dir nonzeroDrawState 0 0 1 ≠ 0) := by
  have hc : nonzeroDrawState.predictedPositions 1 = nonzeroDrawState.predictedPositions 0 := rfl
  have hr : nonzeroDrawState.rng 0 ≠ 0 := by
    intro h
    have h1 : (3 : ℝ) = 0 := congrArg Prod.fst h
    norm_num at h1
  exact ⟨hc, hr, claim_C7_random_fallback nonzeroDrawState 0 0 1 hc hr⟩

/-! Characterisation of the pressure-force loop and the velocity pass
(claim C5). -/

theorem coincident_before_zero (s : State) (idx : ℕ) : coincident_before s idx 0 = 0 := rfl

theorem coincident_before_succ (s : State) (idx m : ℕ) :
    coincident_before s idx (m + 1) = coincident_before s idx m +
      (if ¬m = idx ∧ vlength (s.predictedPositions m - s.predictedPositions idx) = 0
        then 1 else 0) := by
  unfold coincident_before
  rw [List.range_succ, List.filter_append, List.length_append]
  congr 1
  by_cases h : ¬m = idx ∧ vlength (s.predictedPositions m - s.predictedPositions idx) = 0
  · rw [if_pos h]
    simp [List.filter_singleton, h]
  · rw [if_neg h]
    simp [List.filter_singleton, h]

theorem pressure_fold_char (s : State) (idx r : ℕ) (m : ℕ) :
    (List.range m).foldl (pressureStep s idx) ((0, 0), r) =
      ((((List.range m).filter fun j => ¬j = idx).map (pressure_term s r idx)).sum,
       r + coincident_before s idx m) := by
  induction m with
  | zero => simp [coincident_before]
  | succ m ih =>
    rw [List.range_succ, List.foldl_append, ih, List.foldl_cons, List.foldl_nil]
    by_cases hm : m = idx
    · unfold pressureStep
      rw [if_pos hm]
      rw [List.filter_append, coincident_before_succ]
      have h1 : ¬(¬m = idx ∧ vlength (s.predictedPositions m - s.predictedPositions idx) = 0) :=
        fun hand => hand.1 hm
      rw [if_neg h1, Nat.add_zero]
      have h2 : List.filter (fun j => ¬j = idx) [m] = [] := by
        simp [hm]
      rw [h2, List.append_nil]
    · have step : pressureStep s idx
          ((((List.range m).filter fun j => ¬j = idx).map (pressure_term s r idx)).sum,
            r + coincident_before s idx m) m =
          ((((List.range m).filter fun j => ¬j = idx).map (pressure_term s r idx)).sum +
              pressure_term s r idx m,
            r + coincident_before s idx (m + 1)) := by
        unfold pressureStep
        rw [if_neg hm]
        dsimp only
        rw [coincident_before_succ]
        by_cases hz : vlength (s.predictedPositions m - s.predictedPositions idx) = 0
        · rw [if_pos hz, if_pos ⟨hm, hz⟩]
          refine Prod.ext ?_ ?_
          · show _ + _ = _ + pressure_term s r idx m
            rfl
          · show r + coincident_before s idx m + 1 = r + (coincident_before s idx m + 1)
            rw [Nat.add_assoc]
        · rw [if_neg hz, if_neg (fun hand => hz hand.2)]
          refine Prod.ext ?_ ?_
          · show _ + _ = _ + pressure_term s r idx m
            rfl
          · show r + coincident_before s idx m = r + (coincident_before s idx m + 0)
            rw [Nat.add_zero]
      rw [step]
      rw [List.filter_append]
      have h2 : List.filter (fun j => ¬j = idx) [m] = [m] := by
        simp [hm]
      rw [h2, List.map_append, List.sum_append, List.map_cons, List.map_nil, List.sum_cons,
        List.sum_nil, add_zero]

theorem calculate_pressure_force_char (s : State) (r idx : ℕ) :
    calculate_pressure_force s r idx =
      ((((List.range s.n).filter fun j => ¬j = idx).map (pressure_term s r idx)).sum,
       r + coincident_before s idx s.n) :=
  pressure_fold_char s idx r s.n

theorem rng_cursor_at_succ (s : State) (m : ℕ) :
    rng_cursor_at s (m + 1) = rng_cursor_at s m + coincident_before s m s.n := by
  unfold rng_cursor_at
  rw [List.range_succ, List.map_append, List.sum_append, List.map_cons, List.map_nil,
    List.sum_cons, List.sum_nil]
  omega

theorem velocity_fold_char (s : State) (d : ℚ) (m : ℕ) :
    (List.range m).foldl
      (fun (acc : (ℕ → Vec2) × ℕ) i =>
        (Function.update acc.1 i (acc.1 i + ((d : ℚ) : ℝ) •
            vdivs (calculate_pressure_force s acc.2 i).1 (s.densities i)),
          (calculate_pressure_force s acc.2 i).2))
      (s.velocities, s.rngIndex) =
      (fun i => if i < m then
          s.velocities i + ((d : ℚ) : ℝ) •
            vdivs (calculate_pressure_force s (rng_cursor_at s i) i).1 (s.densities i)
        else s.velocities i,
       rng_cursor_at s m) := by
  induction m with
  | zero =>
    refine Prod.ext ?_ ?_
    · funext i
      simp [List.range_zero]
    · simp [List.range_zero, rng_cursor_at]
  | succ m ih =>
    rw [List.range_succ, List.foldl_append, ih, List.foldl_cons, List.foldl_nil]
    refine Prod.ext ?_ ?_
    · dsimp only
      funext i
      by_cases him : i = m
      · subst him
        rw [Function.update_same]
        rw [if_neg (lt_irrefl i), if_pos (Nat.lt_succ_self i)]
      · rw [Function.update_noteq him]
        by_cases hlt : i < m
        · rw [if_pos hlt, if_pos (Nat.lt_succ_of_lt hlt)]
        · rw [if_neg hlt, if_neg (by omega)]
    · dsimp only
      rw [calculate_pressure_force_char, rng_cursor_at_succ]

theorem velocityPass_char (s : State) (d : ℚ) (i : ℕ) (hi : i < s.n) :
    (velocityPass d s).velocities i =
      s.velocities i + ((d : ℚ) : ℝ) •
        vdivs (calculate_pressure_force s (rng_cursor_at s i) i).1 (s.densities i) := by
  have h2 := congrFun (congrArg Prod.fst (velocity_fold_char s d s.n)) i
  dsimp only at h2
  rw [if_pos hi] at h2
  exact h2

theorem sum_map_filter_and (p q : ℕ → Prop) [DecidablePred p] [DecidablePred q]
    (f : ℕ → Vec2) (l : List ℕ) (h : ∀ a, p a → ¬q a → f a = 0) :
    ((l.filter fun a => p a ∧ q a).map f).sum = ((l.filter fun a => p a).map f).sum := by
  induction l with
  | nil => rfl
  | cons a t ih =>
    simp only [Bool.decide_and] at ih
    by_cases hp : p a
    · by_cases hq : q a
      · simp [List.filter_cons, hp, hq, Bool.decide_and, ih]
      · simp [List.filter_cons, hp, hq, Bool.decide_and, ih, h a hp hq]
    · simp [List.filter_cons, hp, Bool.decide_and, ih]

theorem pressure_term_far (s : State) (r idx j : ℕ)
    (h : ¬lengthSquared (s.predictedPositions j - s.predictedPositions idx) ≤
        SMOOTHING_RADIUS * SMOOTHING_RADIUS) :
    pressure_term s r idx j = 0 := by
  push_neg at h
  have hr := smoothing_radius_pos
  have hd : SMOOTHING_RADIUS ≤ vlength (s.predictedPositions j - s.predictedPositions idx) := by
    have h1 : SMOOTHING_RADIUS = Real.sqrt (SMOOTHING_RADIUS * SMOOTHING_RADIUS) :=
      (Real.sqrt_mul_self (le_of_lt hr)).symm
    rw [h1]
    exact Real.sqrt_le_sqrt (le_of_lt h)
  have hslope : smoothing_kernel_derivative
      (vlength (s.predictedPositions j - s.predictedPositions idx)) SMOOTHING_RADIUS = 0 := by
    unfold smoothing_kernel_derivative
    rw [if_pos hd]
  unfold pressure_term
  dsimp only
  rw [hslope, zero_smul, smul_zero, vdivs_zero]

/-- C5: for every particle i the pressure pass adds Δt_tick times the
acceleration force/density[i] to velocity[i], where the force is the sum of
shared_pressure · dir · ∇W(dist, h) · m / density[j] over exactly the
particles j ≠ i whose predicted position lies within the smoothing radius of
predicted[i] (each such particle exactly once; the random-unit fallback draws
are threaded through rng_cursor_at / coincident_before). The code loops over
all particle indices rather than a spatial query, and every out-of-radius
term vanishes because the kernel derivative is zero there. -/
theorem claim_C5_pressure_pass (s : State) (i : ℕ) (hi : i < s.n) :
    (velocityPass TICK_DELTA s).velocities i =
      s.velocities i + ((TICK_DELTA : ℚ) : ℝ) •
        vdivs ((((List.range s.n).filter fun j => ¬j = i ∧
            lengthSquared (s.predictedPositions j - s.predictedPositions i) ≤
              SMOOTHING_RADIUS * SMOOTHING_RADIUS).map
          (pressure_term s (rng_cursor_at s i) i)).sum) (s.densities i) := by
  rw [velocityPass_char s TICK_DELTA i hi, calculate_pressure_force_char]
  dsimp only
  rw [sum_map_filter_and (fun j => ¬j = i)
    (fun j => lengthSquared (s.predictedPositions j - s.predictedPositions i) ≤
      SMOOTHING_RADIUS * SMOOTHING_RADIUS)
    (pressure_term s (rng_cursor_at s i) i) (List.range s.n)
    (fun a _ hq => pressure_term_far s (rng_cursor_at s i) i a hq)]

theorem claim_C5_pressure_pass_witness :
    0 < oneParticle.n ∧
      (velocityPass TICK_DELTA oneParticle).velocities 0 =
        oneParticle.velocities 0 + ((TICK_DELTA : ℚ) : ℝ) •
          vdivs ((((List.range oneParticle.n).filter fun j => ¬j = 0 ∧
              lengthSquared (oneParticle.predictedPositions j -
                oneParticle.predictedPositions 0) ≤
                SMOOTHING_RADIUS * SMOOTHING_RADIUS).map
            (pressure_term oneParticle (rng_cursor_at oneParticle 0) 0)).sum)
            (oneParticle.densities 0) :=
  ⟨by norm_num [oneParticle], claim_C5_pressure_pass oneParticle 0 (by norm_num [oneParticle])⟩

/-! The query-based accumulation the spec describes differs from the code's
all-indices loop when the query returns a neighbour more than once. -/

theorem coincidentPair_len : coincidentPair.spatialLookup.length = 2 := rfl

theorem coincidentPair_scan0 :
    scanCell coincidentPair ((1 : ℝ), (1 : ℝ)) (SMOOTHING_RADIUS * SMOOTHING_RADIUS) 0 0 =
      [0, 1] := by
  have h := scanCell_all coincidentPair ((1 : ℝ), (1 : ℝ))
    (SMOOTHING_RADIUS * SMOOTHING_RADIUS) 0
    (by
      intro m hm
      rw [coincidentPair_len] at hm
      interval_cases m <;> decide)
    (by
      intro m _hm
      have hp : coincidentPair.positions (coincidentPair.spatialLookup.getD m (0, 0)).1 =
          ((1 : ℝ), (1 : ℝ)) := rfl
      rw [hp]
      norm_num [lengthSquared, Prod.fst_sub, Prod.snd_sub, SMOOTHING_RADIUS])
    coincidentPair.spatialLookup.length 0 (by omega)
  rw [h]
  rfl

theorem coincidentPair_scan_max (k : ℕ) :
    scanCell coincidentPair ((1 : ℝ), (1 : ℝ)) (SMOOTHING_RADIUS * SMOOTHING_RADIUS) k
      USIZE_MAX = [] := by
  have hguard : ¬USIZE_MAX < coincidentPair.spatialLookup.length := by
    rw [coincidentPair_len]
    norm_num [USIZE_MAX]
  rw [scanCell, dif_neg hguard]

theorem coincidentPair_start0 : coincidentPair.startIndices 0 = 0 := rfl

theorem coincidentPair_start1 : coincidentPair.startIndices 1 = USIZE_MAX := rfl

theorem coincidentPair_scan_any (k : ℕ) :
    scanCell coincidentPair ((1 : ℝ), (1 : ℝ)) (SMOOTHING_RADIUS * SMOOTHING_RADIUS) (k % 2)
      (coincidentPair.startIndices (k % 2)) = if k % 2 = 0 then [0, 1] else [] := by
  rcases (by omega : k % 2 = 0 ∨ k % 2 = 1) with h | h <;> rw [h]
  · rw [coincidentPair_start0, coincidentPair_scan0, if_pos rfl]
  · rw [coincidentPair_start1, coincidentPair_scan_max, if_neg (by norm_num)]

theorem coincidentPair_neighbours :
    get_neighbours_by_pos coincidentPair ((1 : ℝ), (1 : ℝ)) = [0, 1, 0, 1, 0, 1, 0, 1, 0, 1] := by
  simp only [get_neighbours_by_pos, cell_one_one, coincidentPair_len, coincidentPair_scan_any]
  decide

theorem vlength_three_four : vlength (((3 : ℝ), (4 : ℝ)) : Vec2) = 5 := by
  unfold vlength lengthSquared
  dsimp only
  rw [show (3 : ℝ) * 3 + 4 * 4 = 5 * 5 by norm_num]
  exact Real.sqrt_mul_self (by norm_num)

theorem vnormalize_three_four :
    vnormalize (((3 : ℝ), (4 : ℝ)) : Vec2) = ((3 / 5 : ℝ), (4 / 5 : ℝ)) := by
  unfold vnormalize
  rw [vlength_three_four]
  rfl

theorem coincidentPair_dir (r : ℕ) :
    pressure_dir coincidentPair r 0 1 = ((3 / 5 : ℝ), (4 / 5 : ℝ)) := by
  unfold pressure_dir
  dsimp only
  have hp : coincidentPair.predictedPositions 1 - coincidentPair.predictedPositions 0 = 0 := by
    show (((1 : ℝ), (1 : ℝ)) : Vec2) - ((1 : ℝ), (1 : ℝ)) = 0
    rw [sub_self]
  rw [hp, vlength_zero, if_pos rfl]
  have hr : coincidentPair.rng r = (((3 : ℝ), (4 : ℝ)) : Vec2) := rfl
  rw [hr, vnormalize_three_four]

theorem coincidentPair_step_skip (acc : Vec2 × ℕ) :
    pressureStep coincidentPair 0 acc 0 = acc := by
  unfold pressureStep
  rw [if_pos rfl]

theorem coincidentPair_step_one (acc : Vec2 × ℕ) :
    pressureStep coincidentPair 0 acc 1 =
      (acc.1 + vdivs (MASS • (smoothing_kernel_derivative 0 SMOOTHING_RADIUS •
        (calculate_shared_pressure 1 1 • (((3 : ℝ) / 5, (4 : ℝ) / 5) : Vec2)))) 1,
       acc.2 + 1) := by
  unfold pressureStep
  rw [if_neg (by norm_num : ¬(1 : ℕ) = 0)]
  dsimp only
  have hp : coincidentPair.predictedPositions 1 - coincidentPair.predictedPositions 0 = 0 := by
    show (((1 : ℝ), (1 : ℝ)) : Vec2) - ((1 : ℝ), (1 : ℝ)) = 0
    rw [sub_self]
  rw [hp, vlength_zero, if_pos rfl, coincidentPair_dir]
  have hd1 : coincidentPair.densities 1 = 1 := rfl
  have hd0 : coincidentPair.densities 0 = 1 := rfl
  rw [hd1, hd0]

/-- C5 counterexample: with two particles of coincident predicted positions
the nine scanned cells alias to the run of the single occupied key, so the
spatial query returns the other particle five times; folding the loop body
over the query's neighbour list (as the spec words the accumulation) then
adds the coincident pair's non-zero term five times, while the code's
all-indices loop adds it once. -/
theorem claim_C5_counterexample :
    (calculate_pressure_force_query_spec coincidentPair 0 0).1 ≠
      (calculate_pressure_force coincidentPair 0 0).1 := by
  have hq : get_neighbours_by_pos coincidentPair (coincidentPair.predictedPositions 0) =
      [0, 1, 0, 1, 0, 1, 0, 1, 0, 1] := by
    have hp0 : coincidentPair.predictedPositions 0 = ((1 : ℝ), (1 : ℝ)) := rfl
    rw [hp0, coincidentPair_neighbours]
  have hspec := hq
  have hslope : smoothing_kernel_derivative 0 SMOOTHING_RADIUS =
      (0 - SMOOTHING_RADIUS) * (12 / (SMOOTHING_RADIUS ^ 4 * Real.pi)) := by
    unfold smoothing_kernel_derivative
    rw [if_neg (by norm_num [SMOOTHING_RADIUS] : ¬SMOOTHING_RADIUS ≤ 0)]
  have hsh : calculate_shared_pressure 1 1 = -200 := by
    unfold calculate_shared_pressure convert_density_to_pressure
    norm_num [TARGET_DENSITY, PRESSURE_MULTIPLIER]
  have hx : 0 < (vdivs (MASS • (smoothing_kernel_derivative 0 SMOOTHING_RADIUS •
      (calculate_shared_pressure 1 1 • (((3 : ℝ) / 5, (4 : ℝ) / 5) : Vec2)))) 1).1 := by
    rw [hslope, hsh]
    unfold vdivs
    dsimp only
    simp only [Prod.smul_fst, smul_eq_mul, MASS]
    rw [SMOOTHING_RADIUS]
    have h12 : (0 : ℝ) < 12 / ((7 / 10) ^ 4 * Real.pi) := by positivity
    nlinarith [h12]
  have hcode : calculate_pressure_force coincidentPair 0 0 =
      (((0 : ℝ), (0 : ℝ)) + vdivs (MASS • (smoothing_kernel_derivative 0 SMOOTHING_RADIUS •
          (calculate_shared_pressure 1 1 • (((3 : ℝ) / 5, (4 : ℝ) / 5) : Vec2)))) 1,
        1) := by
    unfold calculate_pressure_force
    have hn : coincidentPair.n = 2 := rfl
    rw [hn, show List.range 2 = [0, 1] from rfl]
    rw [List.foldl_cons, coincidentPair_step_skip, List.foldl_cons, coincidentPair_step_one,
      List.foldl_nil]
  have hqspec : calculate_pressure_force_query_spec coincidentPair 0 0 =
      (((0 : ℝ), (0 : ℝ)) + vdivs (MASS • (smoothing_kernel_derivative 0 SMOOTHING_RADIUS •
          (calculate_shared_pressure 1 1 • (((3 : ℝ) / 5, (4 : ℝ) / 5) : Vec2)))) 1 +
        vdivs (MASS • (smoothing_kernel_derivative 0 SMOOTHING_RADIUS •
          (calculate_shared_pressure 1 1 • (((3 : ℝ) / 5, (4 : ℝ) / 5) : Vec2)))) 1 +
        vdivs (MASS • (smoothing_kernel_derivative 0 SMOOTHING_RADIUS •
          (calculate_shared_pressure 1 1 • (((3 : ℝ) / 5, (4 : ℝ) / 5) : Vec2)))) 1 +
        vdivs (MASS • (smoothing_kernel_derivative 0 SMOOTHING_RADIUS •
          (calculate_shared_pressure 1 1 • (((3 : ℝ) / 5, (4 : ℝ) / 5) : Vec2)))) 1 +
        vdivs (MASS • (smoothing_kernel_derivative 0 SMOOTHING_RADIUS •
          (calculate_shared_pressure 1 1 • (((3 : ℝ) / 5, (4 : ℝ) / 5) : Vec2)))) 1,
        5) := by
    unfold calculate_pressure_force_query_spec
    rw [hspec]
    rw [List.foldl_cons, coincidentPair_step_skip, List.foldl_cons, coincidentPair_step_one]
    rw [List.foldl_cons, coincidentPair_step_skip, List.foldl_cons, coincidentPair_step_one]
    rw [List.foldl_cons, coincidentPair_step_skip, List.foldl_cons, coincidentPair_step_one]
    rw [List.foldl_cons, coincidentPair_step_skip, List.foldl_cons, coincidentPair_step_one]
    rw [List.foldl_cons, coincidentPair_step_skip, List.foldl_cons, coincidentPair_step_one]
    rw [List.foldl_nil]
  rw [hcode, hqspec]
  set F : Vec2 := vdivs (MASS • (smoothing_kernel_derivative 0 SMOOTHING_RADIUS •
    (calculate_shared_pressure 1 1 • (((3 : ℝ) / 5, (4 : ℝ) / 5) : Vec2)))) 1 with hF
  intro heq
  have h2 : ((0 : ℝ), (0 : ℝ)) + F + F + F + F + F = ((0 : ℝ), (0 : ℝ)) + F := heq
  have h1 := congrArg Prod.fst h2
  simp only [Prod.fst_add] at h1
  linarith [hx, h1]

end PlasmaPong
